import Mathlib

/-!
Verification development for the Tokko Broker lead-scraper.

The definitions below are a shallow embedding of the scraping engine:

* `parseDate`, `parseLeadFromText`, `getLeadKey`, `scanRows` /
  `scrapeVisibleLeadsM`, `filterLeads`, `processLeads`, `finalPass`,
  `loopIterCore` / `loopFuelE` / `scrapeLeadsUntilDateE` embed
  `src/scraper/leads.js`;
* `scrapeLeadsPipeline` / `scrapeLeadsModel` embed the orchestrator
  `scrapeLeads` of `src/scraper/index.js`;
* `routeScrape` embeds the `POST /api/leads/scrape` handler of
  `src/api/routes/leads.js`.

Modelling conventions: a JS instant (`Date`) is an `Int` counting minutes of
local time since the Unix epoch; one calendar day is 1440 minutes (daylight
saving shifts are out of scope).  A JS string field that can be
null/undefined is an `Option String`; JS falsiness of `""` is handled by
`truthy`/`jsOr`.  The browser page is an `Env` of total functions: `rows k`
is the flattened text of the table rows visible at the k-th DOM scan,
`scroll k` the k-th `scrollContainer` result, `propDetails`/`contactDetails`
the outcomes of the enrichment clicks, and `currentUrl` the page URL, which
is constant for a run, so the many `checkSessionActive` call sites collapse
to one equivalent check per step.
-/

/-! ### Character and string utilities (JS `trim`, `toLowerCase`, `includes`, regexes) -/

/-- Whitespace for the purposes of JS `\s`, `trim` and `replace(/\s+/g,' ')`
(ASCII fragment). -/
def isWsChar (c : Char) : Bool :=
  c = ' ' || c = '\t' || c = '\n' || c = '\r'

/-- JS `String.prototype.trim` on a character list (ASCII whitespace). -/
def trimChars (cs : List Char) : List Char :=
  ((cs.dropWhile isWsChar).reverse.dropWhile isWsChar).reverse

/-- Helper for `collapseWs`: `prevWs` records whether the previous kept
character was (the representative of) a whitespace run. -/
def collapseWsGo : List Char → Bool → List Char
  | [], _ => []
  | c :: cs, prevWs =>
    if isWsChar c then
      if prevWs then collapseWsGo cs true else ' ' :: collapseWsGo cs true
    else c :: collapseWsGo cs false

/-- JS `text.replace(/\s+/g, ' ').trim()` as used by `parseLeadFromText`. -/
def collapseWsTrim (cs : List Char) : List Char :=
  trimChars (collapseWsGo cs false)

/-- Does `hay` start with `pat`? -/
def listStartsWith : List Char → List Char → Bool
  | _, [] => true
  | [], _ :: _ => false
  | c :: cs, p :: ps => c == p && listStartsWith cs ps

/-- JS `String.prototype.includes pat` on character lists. -/
def containsSub (pat : List Char) : List Char → Bool
  | [] => listStartsWith [] pat
  | s@(_ :: t) => listStartsWith s pat || containsSub pat t

/-- JS `s.includes pat` on strings. -/
def strContains (s pat : String) : Bool :=
  containsSub pat.toList s.toList

/-- Numeric value of a digit run (JS `parseInt` on a `\d+` capture). -/
def digitsVal (ds : List Char) : Nat :=
  ds.foldl (fun a c => a * 10 + (c.toNat - '0'.toNat)) 0

/-- ASCII lower-casing of a string (JS `toLowerCase`, ASCII fragment). -/
def jsToLower (s : String) : String :=
  String.mk (s.toList.map Char.toLower)

/-- Take exactly `n` characters satisfying `p`, returning them and the rest. -/
def takeExact : Nat → (Char → Bool) → List Char → Option (List Char × List Char)
  | 0, _, cs => some ([], cs)
  | _ + 1, _, [] => none
  | n + 1, p, c :: cs =>
    if p c then (takeExact n p cs).map (fun t => (c :: t.1, t.2)) else none

/-! ### The date-string regexes of `parseDate` (leads.js 370-432) -/

/-- One attempt of `/(\d+)\s*LIT/` at the head of `cs`: a nonempty digit run,
optional whitespace, then the literal `lit` (extra characters may follow, as
with the `s` of `años`). -/
def numThenAt (lit cs : List Char) : Option Nat :=
  let ds := cs.takeWhile Char.isDigit
  if ds.isEmpty then none
  else
    let rest := (cs.drop ds.length).dropWhile isWsChar
    if listStartsWith rest lit then some (digitsVal ds) else none

/-- Leftmost match of `/(\d+)\s*LIT/`, scanning every start position as the
JS regex engine does. -/
def matchNumThen (lit : List Char) : List Char → Option Nat
  | [] => none
  | s@(_ :: t) =>
    match numThenAt lit s with
    | some n => some n
    | none => matchNumThen lit t

/-- One attempt of `/hace\s*(\d+)\s*LIT/` at the head of `cs`. -/
def haceNumAt (lit cs : List Char) : Option Nat :=
  if listStartsWith cs "hace".toList then
    let r1 := (cs.drop 4).dropWhile isWsChar
    let ds := r1.takeWhile Char.isDigit
    if ds.isEmpty then none
    else
      let r2 := (r1.drop ds.length).dropWhile isWsChar
      if listStartsWith r2 lit then some (digitsVal ds) else none
  else none

/-- Leftmost match of `/hace\s*(\d+)\s*LIT/`. -/
def matchHaceNum (lit : List Char) : List Char → Option Nat
  | [] => none
  | s@(_ :: t) =>
    match haceNumAt lit s with
    | some n => some n
    | none => matchHaceNum lit t

/-- One attempt of `(\d{1,2})\/(\d{1,2})\/(\d{4})` with the given widths for
the first two groups. -/
def tryDMYwith (n1 n2 : Nat) (cs : List Char) : Option (Nat × Nat × Nat) :=
  match takeExact n1 Char.isDigit cs with
  | none => none
  | some (d1, r1) =>
    match r1 with
    | '/' :: r2 =>
      match takeExact n2 Char.isDigit r2 with
      | none => none
      | some (d2, r3) =>
        match r3 with
        | '/' :: r4 =>
          match takeExact 4 Char.isDigit r4 with
          | none => none
          | some (d3, _) => some (digitsVal d1, digitsVal d2, digitsVal d3)
        | _ => none
    | _ => none

/-- One attempt of `/(\d{1,2})\/(\d{1,2})\/(\d{4})/` at the head of `cs`,
with the JS backtracking order for the `{1,2}` quantifiers. -/
def tryDMYAt (cs : List Char) : Option (Nat × Nat × Nat) :=
  match tryDMYwith 2 2 cs with
  | some r => some r
  | none =>
    match tryDMYwith 2 1 cs with
    | some r => some r
    | none =>
      match tryDMYwith 1 2 cs with
      | some r => some r
      | none => tryDMYwith 1 1 cs

/-- Leftmost match of `/(\d{1,2})\/(\d{1,2})\/(\d{4})/` (day, month, year
captures in source order). -/
def findDMY : List Char → Option (Nat × Nat × Nat)
  | [] => none
  | s@(_ :: t) =>
    match tryDMYAt s with
    | some r => some r
    | none => findDMY t

/-! ### JS calendar arithmetic -/

/-- Days from the Unix epoch to the first day of month `m` (1-12) of year
`y`, proleptic Gregorian (the standard civil-days computation; it encodes a
JS local `Date` at midnight). -/
def daysFromCivil (y : Int) (m : Nat) (d : Int) : Int :=
  let y2 : Int := if m ≤ 2 then y - 1 else y
  let era : Int := Int.fdiv y2 400
  let yoe : Int := y2 - era * 400
  let mp : Nat := (m + 9) % 12
  let doy : Int := ((153 * mp + 2) / 5 : Nat) + d - 1
  let doe : Int := yoe * 365 + Int.fdiv yoe 4 - Int.fdiv yoe 100 + doy
  era * 146097 + doe - 719468

/-- Model of JS `new Date(y, m0, d)` (local midnight), in minutes since the
epoch; `m0` is the JS zero-based month and may overflow, `d` may roll over,
both normalized exactly as the JS `Date` constructor does. -/
def jsMakeDate (y m0 d : Int) : Int :=
  let q := Int.fdiv m0 12
  let r := (m0 - 12 * q).toNat
  1440 * daysFromCivil (y + q) (r + 1) d

/-- Model of the V8 fallback parser invoked by the generic `new Date(dateStr)`
call in `parseDate`, for the string shapes that can reach it: a month-first
`M/D/YYYY` date with optional ` H:MM` time.  Day-first strings such as
`26/11/2025` have a first component above 12 and yield Invalid Date (`none`),
as does anything not of this shape. -/
def jsDateParse (cs0 : List Char) : Option Int :=
  let cs := trimChars cs0
  let ds1 := cs.takeWhile Char.isDigit
  if ds1.isEmpty || ds1.length > 2 then none
  else
    let m := digitsVal ds1
    match cs.drop ds1.length with
    | '/' :: r2 =>
      let ds2 := r2.takeWhile Char.isDigit
      if ds2.isEmpty || ds2.length > 2 then none
      else
        let d := digitsVal ds2
        match r2.drop ds2.length with
        | '/' :: r4 =>
          let ds3 := r4.takeWhile Char.isDigit
          if ds3.length ≠ 4 then none
          else
            let y := digitsVal ds3
            if m < 1 || m > 12 || d < 1 || d > 31 then none
            else
              let rest := r4.drop 4
              if (trimChars rest).isEmpty then
                some (jsMakeDate (y : Int) ((m : Int) - 1) (d : Int))
              else
                match rest with
                | w :: r5 =>
                  if isWsChar w then
                    let r6 := r5.dropWhile isWsChar
                    let hs := r6.takeWhile Char.isDigit
                    if hs.isEmpty || hs.length > 2 then none
                    else
                      let h := digitsVal hs
                      match r6.drop hs.length with
                      | ':' :: r7 =>
                        let ms := r7.takeWhile Char.isDigit
                        if ms.length ≠ 2 then none
                        else
                          let mi := digitsVal ms
                          if h > 23 || mi > 59 || !(trimChars (r7.drop 2)).isEmpty then none
                          else
                            some (jsMakeDate (y : Int) ((m : Int) - 1) (d : Int)
                              + 60 * (h : Int) + (mi : Int))
                      | _ => none
                  else none
                | [] => none
        | _ => none
    | _ => none

/-! ### `parseDate` (leads.js 370-432) -/

/-- Guard of the relative-duration branch: the cleaned string mentions
`año`, `día` or `mes`. -/
def relGuard (cs : List Char) : Bool :=
  containsSub "año".toList cs || containsSub "día".toList cs ||
    containsSub "mes".toList cs

/-- Total day count of the relative-duration branch:
years × 365 + months × 30 + days, each from its own regex. -/
def relTotal (cs : List Char) : Nat :=
  365 * ((matchNumThen "año".toList cs).getD 0)
    + 30 * ((matchNumThen "mes".toList cs).getD 0)
    + ((matchNumThen "día".toList cs).getD 0)

/-- `parseDate` of leads.js: resolves a display string to an instant
relative to `now`, or `none`.  Rule order as in the source: relative
duration, `hace N horas/minutos`, generic `new Date`, explicit
`DD/MM/YYYY` (whose time of day, if any, is not captured). -/
def parseDate (now : Int) (s : String) : Option Int :=
  if s = "" then none
  else
    let cs := (trimChars s.toList).map Char.toLower
    let orig := s.toList
    if relGuard cs && relTotal cs > 0 then
      some (now - 1440 * (relTotal cs : Int))
    else
      let hace : Option Int :=
        if containsSub "hace".toList cs then
          match matchHaceNum "hora".toList cs with
          | some h => some (now - 60 * (h : Int))
          | none =>
            match matchHaceNum "minuto".toList cs with
            | some mi => some (now - (mi : Int))
            | none => none
        else none
      match hace with
      | some d => some d
      | none =>
        match jsDateParse orig with
        | some d => some d
        | none =>
          match findDMY orig with
          | some (d, m, y) => some (jsMakeDate (y : Int) ((m : Int) - 1) (d : Int))
          | none => none

/-- `parseDate` lifted to a possibly-missing string: JS `parseDate(x)` where
`x` may be `null`/`undefined` (the `if (!dateStr) return null` guard). -/
def parseDateOpt (now : Int) (o : Option String) : Option Int :=
  match o with
  | none => none
  | some s => parseDate now s

/-! ### JS truthiness on optional strings -/

/-- JS truthiness of a string field that may be null/undefined:
`none` and `some ""` are falsy. -/
def truthy (o : Option String) : Bool :=
  match o with
  | some s => s ≠ ""
  | none => false

/-- JS `a || b` on optional strings. -/
def jsOr (a b : Option String) : Option String :=
  if truthy a then a else b

/-- JS `x || ''` (the interpolation default of `getLeadKey`). -/
def orEmpty (o : Option String) : String :=
  match o with
  | some s => s
  | none => ""

/-! ### `parseLeadFromText` (leads.js 875-921) -/

/-- The lead object produced by a row scan.  `agentName` is the JS
`_agentName` field; `propertyName` and `vigencia` are listed because
`getLeadKey` and the date gate read them, but `parseLeadFromText` never
assigns them (reading them in JS gives `undefined`). -/
structure RawLead where
  contactName : Option String := none
  propertyAddress : Option String := none
  lastUpdated : Option String := none
  agentName : Option String := none
  propertyName : Option String := none
  vigencia : Option String := none
deriving DecidableEq, Repr

/-- One attempt of `/(\d{2}\/\d{2}\/\d{4}\s+\d{2}:\d{2})/` at the head of
`cs`, returning the captured substring. -/
def tryDateTokAt (cs : List Char) : Option (List Char) :=
  match takeExact 2 Char.isDigit cs with
  | none => none
  | some (d1, r1) =>
    match r1 with
    | '/' :: r2 =>
      match takeExact 2 Char.isDigit r2 with
      | none => none
      | some (d2, r3) =>
        match r3 with
        | '/' :: r4 =>
          match takeExact 4 Char.isDigit r4 with
          | none => none
          | some (y, r5) =>
            let ws := r5.takeWhile isWsChar
            if ws.isEmpty then none
            else
              match takeExact 2 Char.isDigit (r5.drop ws.length) with
              | none => none
              | some (h, r6) =>
                match r6 with
                | ':' :: r7 =>
                  match takeExact 2 Char.isDigit r7 with
                  | none => none
                  | some (mi, _) =>
                    some (d1 ++ '/' :: d2 ++ '/' :: y ++ ws ++ h ++ ':' :: mi)
                | _ => none
        | _ => none
    | _ => none

/-- Leftmost match of the timestamp regex, with its start index; the index
equals JS `cleanText.indexOf(dateMatch[1])` because the pattern is
determined by character content, so no earlier occurrence of the matched
substring can exist. -/
def findDateTok : List Char → Nat → Option (Nat × List Char)
  | [], _ => none
  | s@(_ :: t), i =>
    match tryDateTokAt s with
    | some tok => some (i, tok)
    | none => findDateTok t (i + 1)

/-- The `^([^(]+)\s*\(([^)]+)\)` match of `parseLeadFromText`: raw (untrimmed)
name and agent captures.  The greedy `[^(]+` takes everything before the
first parenthesis, and `[^)]+` everything up to the next closing one. -/
def contactMatch (cs : List Char) : Option (List Char × List Char) :=
  let before := cs.takeWhile (fun c => c ≠ '(')
  if before.isEmpty then none
  else
    match cs.drop before.length with
    | '(' :: rest =>
      let agent := rest.takeWhile (fun c => c ≠ ')')
      if agent.isEmpty then none
      else
        match rest.drop agent.length with
        | ')' :: _ => some (before, agent)
        | _ => none
    | _ => none

/-- The trimmed contact name of a row, or `none` when the leading
`Name (Agent)` pattern is absent or the name trims to empty — exactly the
condition under which `parseLeadFromText` returns null. -/
def contactNameOf (text : String) : Option String :=
  match contactMatch (collapseWsTrim text.toList) with
  | none => none
  | some (rawName, _) =>
    let n := String.mk (trimChars rawName)
    if n = "" then none else some n

/-- `parseLeadFromText` of leads.js: best-effort extraction of
`ContactName (AgentName) PropertyAddress DD/MM/YYYY HH:MM` from a row's
flattened text; returns a lead exactly when a contact name is found. -/
def parseLeadFromText (text : String) : Option RawLead :=
  if text = "" then none
  else
    let clean := collapseWsTrim text.toList
    let dateM := findDateTok clean 0
    let lastUpdated : Option String := dateM.map (fun p => String.mk p.2)
    match contactNameOf text with
    | none => none
    | some name =>
      let agentName : String :=
        match contactMatch clean with
        | some (_, rawAgent) => String.mk (trimChars rawAgent)
        | none => ""
      let propertyAddress : Option String :=
        match dateM with
        | none => none
        | some (idx, _) =>
          let afterAgent : Nat :=
            match clean.findIdx? (fun c => c = ')') with
            | some i => i + 1
            | none => 0
          if afterAgent > 0 && idx > afterAgent then
            let sub := trimChars ((clean.drop afterAgent).take (idx - afterAgent))
            some (String.mk (trimChars (sub.dropWhile (fun c => isWsChar c || c = '@'))))
          else none
      some { contactName := some name, propertyAddress := propertyAddress,
             lastUpdated := lastUpdated, agentName := some agentName }

/-! ### `getLeadKey` (leads.js 471-473) -/

/-- The deduplication key: the lower-cased interpolation of `contactName`,
`propertyName` and `vigencia` — the latter two being fields the row parser
never produces. -/
def getLeadKey (lead : RawLead) : String :=
  jsToLower (orEmpty lead.contactName ++ "-" ++ orEmpty lead.propertyName
    ++ "-" ++ orEmpty lead.vigencia)

/-! ### Section classification and `scrapeVisibleLeads` (leads.js 478-580) -/

/-- `STATUS_SECTION_HEADERS` of leads.js. -/
def statusSectionHeaders : List (String × String) :=
  [("para_reasignacion", "Para reasignacion"),
   ("sin_seguimiento", "Sin Seguimiento"),
   ("pendiente_contactar", "Pendiente contactar"),
   ("esperando_respuesta", "Esperando respuesta"),
   ("evolucionando", "Evolucionando"),
   ("tomar_accion", "Tomar Accion"),
   ("congelado", "Congelado")]

/-- The header text of a status key (`STATUS_SECTION_HEADERS[targetStatus]`,
`none` for `all` or unknown keys). -/
def headerFor (s : String) : Option String :=
  (statusSectionHeaders.find? (fun p => p.1 == s)).map (fun p => p.2)

/-- Does the text contain `(digits)` — the `/\(\d+\)/` test of the header
detector? -/
def hasParenCount : List Char → Bool
  | [] => false
  | '(' :: rest =>
    (let ds := rest.takeWhile Char.isDigit
     !ds.isEmpty && listStartsWith (rest.drop ds.length) [')'])
      || hasParenCount rest
  | _ :: rest => hasParenCount rest

/-- Is this row a status-section header (known section label plus a
parenthesized count)? -/
def isSectionHeaderRow (text : String) : Bool :=
  (statusSectionHeaders.any (fun p => strContains text p.2))
    && hasParenCount text.toList

/-- The row loop of `scrapeVisibleLeads`: walk the rendered rows, track
whether the traversal is inside the target section, stop at a different
header once inside (for a specific section), and parse data rows. -/
def scanRows (targetHeader : Option String) (targetStatus : String) :
    List String → Bool → List RawLead
  | [], _ => []
  | text :: rest, inTarget =>
    if isSectionHeaderRow text then
      match targetHeader with
      | some th =>
        if strContains text th then scanRows targetHeader targetStatus rest true
        else if inTarget && targetStatus != "all" then []
        else scanRows targetHeader targetStatus rest inTarget
      | none => scanRows targetHeader targetStatus rest inTarget
    else if !inTarget then scanRows targetHeader targetStatus rest inTarget
    else
      match parseLeadFromText text with
      | some l =>
        if truthy l.contactName then
          l :: scanRows targetHeader targetStatus rest inTarget
        else scanRows targetHeader targetStatus rest inTarget
      | none => scanRows targetHeader targetStatus rest inTarget

/-- `scrapeVisibleLeads` of leads.js, over the flattened row texts visible at
one scan; `llmLeads` is the result of the `extractLeadsFromHTML` fallback,
used only when the structural parse yields no leads. -/
def scrapeVisibleLeadsM (rows : List String) (llmLeads : List RawLead)
    (targetStatus : String) : List RawLead :=
  let inTarget0 := targetStatus == "all" || targetStatus == ""
  let targetHeader := if targetStatus != "" then headerFor targetStatus else none
  let leads := scanRows targetHeader targetStatus rows inTarget0
  if leads.isEmpty && !llmLeads.isEmpty then llmLeads else leads

/-! ### The canonical lead record built by `scrapeLeadsUntilDate` -/

/-- The `contact` section of a structured lead. -/
structure ContactSection where
  name : Option String
  email : Option String
  phone : Option String
  cellPhone : Option String
deriving DecidableEq, Repr

/-- The `agent` section of a structured lead. -/
structure AgentSection where
  name : Option String
deriving DecidableEq, Repr

/-- The `property` section of a structured lead. -/
structure PropertySection where
  id : Option String
  address : Option String
deriving DecidableEq, Repr

/-- The structured lead object assembled by `scrapeLeadsUntilDate`
(leads.js 1168-1188); `scrapedAt` is the instant of `new Date()`. -/
structure StructuredLead where
  contact : ContactSection
  agent : AgentSection
  property : PropertySection
  lastUpdated : Option String
  scrapedAt : Int
deriving DecidableEq, Repr

/-- Result of `extractContactDetails`. -/
structure ContactInfo where
  email : Option String
  phone : Option String
  cellPhone : Option String
deriving DecidableEq, Repr

/-- Result of one `scrollContainer` call. -/
structure ScrollRes where
  previousScroll : Int
  newScroll : Int
  maxScroll : Int
deriving DecidableEq, Repr

/-- The page as observed by one run (see the module comment). -/
structure Env where
  currentUrl : String
  now : Int
  rows : Nat → List String
  llm : Nat → List RawLead
  scroll : Nat → ScrollRes
  propDetails : Nat → Option String × Option String
  contactDetails : Nat → ContactInfo

/-- The options object of `scrapeLeadsUntilDate`, with its defaults. -/
structure Options where
  status : String := "all"
  maxScrolls : Nat := 200
  maxLeads : Nat := 10000
  extractDetails : Bool := false

/-! ### The `allLeads` JS `Map` (insertion-ordered, `set` keeps position) -/

/-- JS `Map.prototype.has`. -/
def mapHas (m : List (String × StructuredLead)) (k : String) : Bool :=
  m.any (fun kv => kv.1 == k)

/-- JS `Map.prototype.set`: overwrite in place when the key exists
(preserving its insertion position), else append. -/
def mapSet : List (String × StructuredLead) → String → StructuredLead →
    List (String × StructuredLead)
  | [], k, v => [(k, v)]
  | kv :: rest, k, v =>
    if kv.1 == k then (k, v) :: rest else kv :: mapSet rest k v

/-- JS `Map.prototype.get` (as an `Option`). -/
def mapLookup : List (String × StructuredLead) → String → Option StructuredLead
  | [], _ => none
  | kv :: rest, k => if kv.1 == k then some kv.2 else mapLookup rest k

/-! ### The collection loop of `scrapeLeadsUntilDate` (leads.js 1046-1257) -/

/-- An entry of `leadsToProcess`: the raw lead, its dedup key, and its
resolved date (possibly null). -/
structure FilterItem where
  lead : RawLead
  key : String
  leadDate : Option Int
deriving DecidableEq, Repr

/-- The date-gating loop over `visibleLeads` (leads.js 1118-1137): skip keys
already stored, stop at the first new lead strictly older than the target
date (setting the reached flag), and collect the rest for processing. -/
def filterLeads (store : List (String × StructuredLead)) (target now : Int) :
    List RawLead → List FilterItem × Bool
  | [] => ([], false)
  | lead :: rest =>
    let key := getLeadKey lead
    if mapHas store key then filterLeads store target now rest
    else
      match parseDateOpt now (jsOr lead.vigencia lead.lastUpdated) with
      | some d =>
        if d < target then ([], true)
        else
          let r := filterLeads store target now rest
          (⟨lead, key, some d⟩ :: r.1, r.2)
      | none =>
        let r := filterLeads store target now rest
        (⟨lead, key, none⟩ :: r.1, r.2)

/-- The structured lead assembled at leads.js 1168-1188 from a raw lead and
its (possibly null) enrichment results. -/
def mkStructured (env : Env) (lead : RawLead) (pid pagent : Option String)
    (ci : ContactInfo) : StructuredLead :=
  { contact :=
      { name := jsOr lead.contactName none, email := ci.email,
        phone := ci.phone, cellPhone := ci.cellPhone },
    agent := { name := jsOr pagent (jsOr lead.agentName none) },
    property := { id := pid, address := jsOr lead.propertyAddress none },
    lastUpdated := jsOr lead.lastUpdated none,
    scrapedAt := env.now }

/-- The value inserted for one processed lead: with `extractDetails` the
property modal and contact popover results at enrichment index `idx`
(`extractPropertyDetails` returns `propertyAgent || lead._agentName`),
otherwise all-null details. -/
def insertedValue (env : Env) (opts : Options) (lead : RawLead) (idx : Nat) :
    StructuredLead :=
  if opts.extractDetails then
    mkStructured env lead (env.propDetails idx).1
      (jsOr (env.propDetails idx).2 lead.agentName) (env.contactDetails idx)
  else mkStructured env lead none none ⟨none, none, none⟩

/-- The loop-local mutable state of one run. -/
structure LoopState where
  allLeads : List (String × StructuredLead) := []
  scrollCount : Nat := 0
  noNewLeadsCount : Nat := 0
  reachedTargetDate : Bool := false
  scanIdx : Nat := 0
  detailIdx : Nat := 0

/-- The processing loop over `leadsToProcess` (leads.js 1142-1191): stop at
the `maxLeads` ceiling, optionally enrich, and `Map.set` the structured
lead. -/
def processLeads (env : Env) (opts : Options) (st : LoopState) :
    List FilterItem → LoopState
  | [] => st
  | item :: rest =>
    if st.allLeads.length ≥ opts.maxLeads then st
    else
      let sl := insertedValue env opts item.lead st.detailIdx
      let st' := if opts.extractDetails then
          { st with detailIdx := st.detailIdx + 1 } else st
      processLeads env opts
        { st' with allLeads := mapSet st'.allLeads item.key sl } rest

/-- The null-detail structured lead built in the end-of-scroll rescan
(leads.js 1220-1236). -/
def structuredNull (env : Env) (lead : RawLead) : StructuredLead :=
  { contact :=
      { name := jsOr lead.contactName none, email := none,
        phone := none, cellPhone := none },
    agent := { name := jsOr lead.agentName none },
    property := { id := none, address := jsOr lead.propertyAddress none },
    lastUpdated := jsOr lead.lastUpdated none,
    scrapedAt := env.now }

/-- The end-of-scroll final rescan (leads.js 1214-1240): keep new keys whose
date is unresolvable or at/after the target; note the absence of any
`maxLeads` check on this path. -/
def finalPass (env : Env) (target : Int) (st : LoopState) :
    List RawLead → LoopState
  | [] => st
  | lead :: rest =>
    let key := getLeadKey lead
    if mapHas st.allLeads key then finalPass env target st rest
    else
      match parseDateOpt env.now (jsOr lead.vigencia lead.lastUpdated) with
      | none =>
        finalPass env target
          { st with allLeads := mapSet st.allLeads key (structuredNull env lead) } rest
      | some d =>
        if target ≤ d then
          finalPass env target
            { st with allLeads := mapSet st.allLeads key (structuredNull env lead) } rest
        else finalPass env target st rest

/-- The leads visible at scan index `k`. -/
def visibleAt (env : Env) (opts : Options) (k : Nat) : List RawLead :=
  scrapeVisibleLeadsM (env.rows k) (env.llm k) opts.status

/-- Scan + date-gate + process: the first half of one loop iteration,
returning the updated state and whether the target date was reached. -/
def passState (env : Env) (target : Int) (opts : Options) (st : LoopState) :
    LoopState × Bool :=
  let visible := visibleAt env opts st.scanIdx
  let st1 := { st with scanIdx := st.scanIdx + 1 }
  let fr := filterLeads st1.allLeads target env.now visible
  let st2 := { st1 with reachedTargetDate := st1.reachedTargetDate || fr.2 }
  (processLeads env opts st2 fr.1, fr.2)

/-- Outcome of one loop iteration: the loop either breaks (`done`) or goes
on to the next pass (`next`). -/
inductive StepRes where
  | done (st : LoopState)
  | next (st : LoopState)

/-- The scroll step at the end of an iteration (leads.js 1204-1244):
increment `scrollCount`, scroll, and either continue, or — when the new
offset is at 99% of the maximum — run the end-of-scroll final rescan and
break. -/
def scrollStep (env : Env) (target : Int) (opts : Options) (st2 : LoopState) :
    StepRes :=
  let sr := env.scroll st2.scrollCount
  let st3 := { st2 with scrollCount := st2.scrollCount + 1 }
  if 100 * sr.newScroll ≥ 99 * sr.maxScroll then
    let finals := visibleAt env opts st3.scanIdx
    let st4 := { st3 with scanIdx := st3.scanIdx + 1 }
    .done (finalPass env target st4 finals)
  else .next st3

/-- The progress-tracking step (leads.js 1195-1202): a pass that added no
leads bumps the stall counter, otherwise the counter resets; then scroll. -/
def afterPass (env : Env) (target : Int) (opts : Options) (st1 : LoopState)
    (previousCount : Nat) : StepRes :=
  let newLeadsFound := st1.allLeads.length - previousCount
  let st2 :=
    if newLeadsFound == 0 then
      { st1 with noNewLeadsCount := st1.noNewLeadsCount + 1 }
    else { st1 with noNewLeadsCount := 0 }
  scrollStep env target opts st2

/-- One iteration of the while loop (leads.js 1103-1245), session checks
aside: scan and process, break on the reached flag, then the
progress-tracking and scroll steps. -/
def loopIterCore (env : Env) (target : Int) (opts : Options) (st : LoopState) :
    StepRes :=
  let previousCount := st.allLeads.length
  let pr := passState env target opts st
  if pr.2 then .done pr.1
  else afterPass env target opts pr.1 previousCount

/-- The failure kinds a run can raise: the distinguished
`SessionClosedError` of leads.js, or any other error. -/
inductive ScrapeErr where
  | sessionClosed
  | generic (msg : String)
deriving DecidableEq, Repr

/-- The default message of `SessionClosedError`. -/
def sessionClosedMessage : String :=
  "Sesión cerrada inesperadamente. Otro usuario se conectó con las mismas credenciales."

/-- `error.message` of a raised error. -/
def ScrapeErr.message : ScrapeErr → String
  | .sessionClosed => sessionClosedMessage
  | .generic msg => msg

/-- `checkSessionActive` of leads.js 29-35: throw `SessionClosedError` when
the page URL contains `/not_connected`. -/
def checkSessionActiveE (url : String) : Except ScrapeErr Unit :=
  if strContains url "/not_connected" then .error .sessionClosed else .ok ()

/-- The catch blocks repeated throughout leads.js: re-throw
`SessionClosedError`, swallow any other error into a fallback value. -/
def catchNonSession {α : Type} (x : Except ScrapeErr α) (fallback : α) :
    Except ScrapeErr α :=
  match x with
  | .error .sessionClosed => .error .sessionClosed
  | .error (.generic _) => .ok fallback
  | .ok a => .ok a

/-- The while loop with explicit fuel; the loop guard is the source's
`scrollCount < maxScrolls && allLeads.size < maxLeads && noNewLeadsCount < 5
&& !reachedTargetDate`.  Fuel `maxScrolls + 1` is always sufficient because
every continuing iteration increments `scrollCount` (proved below). -/
def loopFuelE (env : Env) (target : Int) (opts : Options) :
    Nat → LoopState → Except ScrapeErr LoopState
  | 0, st => .ok st
  | fuel + 1, st =>
    if st.scrollCount < opts.maxScrolls && st.allLeads.length < opts.maxLeads
        && st.noNewLeadsCount < 5 && !st.reachedTargetDate then
      match checkSessionActiveE env.currentUrl with
      | .error e => .error e
      | .ok _ =>
        match loopIterCore env target opts st with
        | .done st' => .ok st'
        | .next st' => loopFuelE env target opts fuel st'
    else .ok st

/-- `scrapeLeadsUntilDate` of leads.js: branch filter / toggle / status
filter (best-effort, modeled as their session checks), then the collection
loop, then the ordered export of the dedup map. -/
def scrapeLeadsUntilDateE (env : Env) (target : Int) (opts : Options) :
    Except ScrapeErr (List StructuredLead) :=
  match checkSessionActiveE env.currentUrl with
  | .error e => .error e
  | .ok _ =>
    match loopFuelE env target opts (opts.maxScrolls + 1) {} with
    | .error e => .error e
    | .ok final => .ok (final.allLeads.map (fun kv => kv.2))

/-! ### The orchestrator `scrapeLeads` (src/scraper/index.js) -/

/-- Run metadata of a successful scrape. -/
structure Metadata where
  scrapedAt : Int
  targetDate : Int
  totalLeads : Nat
deriving DecidableEq, Repr

/-- The object returned by `scrapeLeads`.  `isSessionClosed` is listed
because the route reads it; both the success and the failure branches of
`scrapeLeads` build their object without it, so it is always `none`
(JS `undefined`). -/
structure ScrapeResult where
  success : Bool
  leads : List StructuredLead
  metadata : Option Metadata
  error : Option String
  isSessionClosed : Option Bool
deriving DecidableEq, Repr

/-- The environment of one whole orchestrated run: Smart-Selector
configuration, login, and the page environment of the collection loop. -/
structure OrchEnv where
  apiKeyPresent : Bool
  loginError : Option String
  runEnv : Env

/-- The try-block of `scrapeLeads`: configure the Smart Selector (throws a
generic error when the OpenAI key is missing), log in (`loginToTokko`
re-throws its failures), navigate to the leads section (session-checked),
then run the collection loop. -/
def scrapeLeadsPipeline (oe : OrchEnv) (target : Int) (opts : Options) :
    Except ScrapeErr (List StructuredLead) :=
  if !oe.apiKeyPresent then
    .error (.generic "OpenAI API key not configured. Set OPENAI_API_KEY in .env")
  else
    match oe.loginError with
    | some msg => .error (.generic msg)
    | none =>
      match checkSessionActiveE oe.runEnv.currentUrl with
      | .error e => .error e
      | .ok _ => scrapeLeadsUntilDateE oe.runEnv target opts

/-- `scrapeLeads` of src/scraper/index.js: the try/catch wrapper that always
resolves, returning a success object with metadata, or a failure object with
empty leads and the error message — and no `isSessionClosed` field on either
branch. -/
def scrapeLeadsModel (oe : OrchEnv) (target : Int) (opts : Options) :
    ScrapeResult :=
  match scrapeLeadsPipeline oe target opts with
  | .ok leads =>
    { success := true, leads := leads,
      metadata := some { scrapedAt := oe.runEnv.now, targetDate := target,
                         totalLeads := leads.length },
      error := none, isSessionClosed := none }
  | .error e =>
    { success := false, leads := [], metadata := none,
      error := some e.message, isSessionClosed := none }

/-! ### The route handler `POST /api/leads/scrape` (src/api/routes/leads.js) -/

/-- The request body, after date parsing: `targetDate = none` models a
missing or unparseable `targetDate` field. -/
structure RouteReq where
  targetDate : Option Int
  status : Option String
  maxLeads : Option Nat
  extractDetails : Option Bool
deriving DecidableEq, Repr

/-- The HTTP responses the route can produce. -/
inductive RouteResp where
  | success (leads : List StructuredLead) (metadata : Option Metadata)
  | badRequest (error : String)
  | serverError (error : Option String) (code : Option String)
deriving DecidableEq, Repr

/-- The valid status options accepted by the route. -/
def validStatuses : List String :=
  ["para_reasignacion", "sin_seguimiento", "pendiente_contactar",
   "esperando_respuesta", "evolucionando", "tomar_accion", "congelado", "all"]

/-- JS `maxLeads || 10000` (zero is falsy). -/
def jsOrTenThousand (o : Option Nat) : Nat :=
  match o with
  | some n => if n = 0 then 10000 else n
  | none => 10000

/-- The `POST /api/leads/scrape` handler: validate the body, run
`scrapeLeads`, and map its result to a response; the 500 branch adds the
code `SESSION_CLOSED` only when `result.isSessionClosed` is truthy. -/
def routeScrape (oe : OrchEnv) (req : RouteReq) : RouteResp :=
  match req.targetDate with
  | none => .badRequest "targetDate is required (format: YYYY-MM-DD)"
  | some target =>
    let selectedStatus := (req.status).getD "pendiente_contactar"
    if !(validStatuses.contains selectedStatus) then
      .badRequest "Invalid status"
    else
      let opts : Options :=
        { status := selectedStatus, maxScrolls := 200,
          maxLeads := jsOrTenThousand req.maxLeads,
          extractDetails := (req.extractDetails).getD false }
      let result := scrapeLeadsModel oe target opts
      if result.success then .success result.leads result.metadata
      else if (result.isSessionClosed).getD false then
        .serverError
          (some "Sesión cerrada inesperadamente. Otro usuario se conectó con las mismas credenciales. Por favor, intente de nuevo.")
          (some "SESSION_CLOSED")
      else .serverError result.error none

/-! ### A Boolean form of the cutoff trigger, and concrete test fixtures -/

/-- Is `lead` a *new* lead (key not yet stored) whose resolved date is
strictly older than the target — the condition that fires the
`reachedTargetDate` break? -/
def isNewOldB (store : List (String × StructuredLead)) (target now : Int)
    (lead : RawLead) : Bool :=
  !(mapHas store (getLeadKey lead)) &&
    (match parseDateOpt now (jsOr lead.vigencia lead.lastUpdated) with
     | some d => d < target
     | none => false)

/-- A page environment with no rows and no scrolling room left to consume:
the benign base for the concrete runs below. -/
def baseEnv : Env :=
  { currentUrl := "https://www.tokkobroker.com/leads/"
    now := 0
    rows := fun _ => []
    llm := fun _ => []
    scroll := fun _ => { previousScroll := 0, newScroll := 0, maxScroll := 100 }
    propDetails := fun _ => (none, none)
    contactDetails := fun _ => { email := none, phone := none, cellPhone := none } }

/-- A run whose page was redirected to the disconnected surface. -/
def closedEnv : Env :=
  { baseEnv with currentUrl := "https://www.tokkobroker.com/not_connected" }

/-- An orchestrated run hitting the closed session. -/
def orchClosed : OrchEnv :=
  { apiKeyPresent := true, loginError := none, runEnv := closedEnv }

/-- A well-formed scrape request. -/
def reqOk : RouteReq :=
  { targetDate := some 0, status := none, maxLeads := none, extractDetails := none }

/-- The first of two same-contact rows (different address and stamp). -/
def leadJuan1 : RawLead :=
  (parseLeadFromText "Juan Perez (Ana Gomez) Colombres 148 26/11/2025 08:15").getD {}

/-- The second of two same-contact rows (different address and stamp). -/
def leadJuan2 : RawLead :=
  (parseLeadFromText "Juan Perez (Ana Gomez) Lavalle 300 01/01/2020 09:00").getD {}

/-- A page whose contact popover yields an email for the first enrichment
click and nothing for the second. -/
def dupEnv : Env :=
  { baseEnv with
    contactDetails := fun i =>
      if i = 0 then { email := some "juan@mail.com", phone := none, cellPhone := none }
      else { email := none, phone := none, cellPhone := none } }

/-- Options requesting detail enrichment. -/
def optsDetails : Options := { extractDetails := true }

/-- A page showing one undated lead, then — after the scroll reports the end
of content — two more undated leads in the final rescan. -/
def overflowEnv : Env :=
  { baseEnv with
    rows := fun k => if k = 0 then ["Ana (Ag)"]
      else ["Ana (Ag)", "Bob (Ag)", "Carla (Ag)"]
    scroll := fun _ => { previousScroll := 0, newScroll := 100, maxScroll := 100 } }

/-- A page showing a recent lead followed by one from 2020, in the UI's
reverse-chronological order. -/
def cutoffEnv : Env :=
  { baseEnv with
    rows := fun _ => ["Ana (Ag) Addr 26/11/2025 08:15", "Bob (Ag) Addr2 01/01/2020 09:00"] }

/-- Midnight of 2024-01-01 (a cutoff lying between the two rows of
`cutoffEnv`). -/
def cutoff2024 : Int := jsMakeDate 2024 0 1

/-- A page showing one undated lead and reporting end-of-scroll at once. -/
def onePassEnv : Env :=
  { baseEnv with
    rows := fun _ => ["Ana (Ag)"]
    scroll := fun _ => { previousScroll := 0, newScroll := 100, maxScroll := 100 } }

/-- The parsed lead of a recent row. -/
def leadAnaNew : RawLead :=
  (parseLeadFromText "Ana (Ag) Addr 26/11/2025 08:15").getD {}

/-- The parsed lead of a 2020 row. -/
def leadBobOld : RawLead :=
  (parseLeadFromText "Bob (Ag) Addr2 01/01/2020 09:00").getD {}

/-- The parsed lead of an undated row. -/
def leadAnaUndated : RawLead := (parseLeadFromText "Ana (Ag)").getD {}

/-- The leads returned by the cutoff run on `cutoffEnv`. -/
def runCutoff : List StructuredLead :=
  match scrapeLeadsUntilDateE cutoffEnv cutoff2024 {} with
  | .ok ls => ls
  | .error _ => []

/-- The leads returned by the one-pass run on `onePassEnv`. -/
def runOnePass : List StructuredLead :=
  match scrapeLeadsUntilDateE onePassEnv 0 {} with
  | .ok ls => ls
  | .error _ => []

/-- The leads returned by the `maxLeads := 1` run on `overflowEnv`. -/
def runOverflow : List StructuredLead :=
  match scrapeLeadsUntilDateE overflowEnv 0 { maxLeads := 1 } with
  | .ok ls => ls
  | .error _ => []

/-- The state after one iteration of the loop on the empty page. -/
def stepBase : LoopState :=
  match loopIterCore baseEnv 0 {} {} with
  | .next s => s
  | .done s => s

/-- A sample stored lead. -/
def slW : StructuredLead := structuredNull baseEnv leadAnaUndated

/-- The date condition every absorbed lead satisfies: its display date is
unresolvable, or resolves at or after the target. -/
def dateOK (env : Env) (target : Int) (lead : RawLead) : Prop :=
  parseDateOpt env.now (jsOr lead.vigencia lead.lastUpdated) = none ∨
    ∃ d, parseDateOpt env.now (jsOr lead.vigencia lead.lastUpdated) = some d ∧
      target ≤ d

/-! ### Lemmas about the dedup map -/

theorem mapSet_mem {m : List (String × StructuredLead)} {k : String}
    {v : StructuredLead} {kv : String × StructuredLead}
    (h : kv ∈ mapSet m k v) : kv ∈ m ∨ kv = (k, v) := by
  induction m with
  | nil => simp [mapSet] at h; simp [h]
  | cons hd tl ih =>
    simp only [mapSet] at h
    by_cases hk : hd.1 == k
    · rw [if_pos hk] at h
      rcases List.mem_cons.mp h with h1 | h1
      · right; exact h1
      · left; exact List.mem_cons_of_mem _ h1
    · rw [if_neg hk] at h
      rcases List.mem_cons.mp h with h1 | h1
      · left; simp [h1]
      · rcases ih h1 with h2 | h2
        · left; exact List.mem_cons_of_mem _ h2
        · right; exact h2

theorem mapSet_length (m : List (String × StructuredLead)) (k : String)
    (v : StructuredLead) :
    (mapSet m k v).length = if mapHas m k then m.length else m.length + 1 := by
  induction m with
  | nil => simp [mapSet, mapHas]
  | cons hd tl ih =>
    by_cases hk : hd.1 == k
    · have hhas : mapHas (hd :: tl) k = true := by
        simp [mapHas, List.any_cons, hk]
      have hdk : hd.1 = k := by simpa using hk
      simp [mapSet, hdk, hhas]
    · have hhas : mapHas (hd :: tl) k = mapHas tl k := by
        simp [mapHas, List.any_cons, hk]
      simp only [mapSet, if_neg hk, List.length_cons, ih, hhas]
      by_cases h2 : mapHas tl k <;> simp [h2]

theorem mapSet_has_mono {m : List (String × StructuredLead)} {k' : String}
    (k : String) (v : StructuredLead) (h : mapHas m k' = true) :
    mapHas (mapSet m k v) k' = true := by
  induction m with
  | nil => simp [mapHas] at h
  | cons hd tl ih =>
    simp only [mapHas, List.any_cons, Bool.or_eq_true] at h
    simp only [mapSet]
    by_cases hk : hd.1 == k
    · rw [if_pos hk]
      simp only [mapHas, List.any_cons, Bool.or_eq_true]
      rcases h with h1 | h1
      · left
        have hdk : hd.1 = k := by simpa using hk
        have hdk' : hd.1 = k' := by simpa using h1
        simp [← hdk, hdk']
      · right; exact h1
    · rw [if_neg hk]
      simp only [mapHas, List.any_cons, Bool.or_eq_true]
      rcases h with h1 | h1
      · left; exact h1
      · right
        have := ih h1
        simpa [mapHas] using this

theorem mapSet_lookup_ne {m : List (String × StructuredLead)} {k k' : String}
    (v : StructuredLead) (h : k' ≠ k) :
    mapLookup (mapSet m k v) k' = mapLookup m k' := by
  induction m with
  | nil =>
    have hne : (k == k') = false := by
      simp only [beq_eq_false_iff_ne]
      exact fun hh => h hh.symm
    simp [mapSet, mapLookup, hne]
  | cons hd tl ih =>
    simp only [mapSet]
    by_cases hk : hd.1 == k
    · rw [if_pos hk]
      have hd1 : hd.1 = k := by simpa using hk
      have hne : (k == k') = false := by
        simp only [beq_eq_false_iff_ne]
        exact fun hh => h hh.symm
      have hne2 : (hd.1 == k') = false := by rw [hd1]; exact hne
      simp [mapLookup, hne, hne2]
    · rw [if_neg hk]
      simp only [mapLookup]
      by_cases h2 : hd.1 == k' <;> simp [h2, ih]

theorem mapHas_of_lookup {m : List (String × StructuredLead)} {k : String}
    {v : StructuredLead} (h : mapLookup m k = some v) : mapHas m k = true := by
  induction m with
  | nil => simp [mapLookup] at h
  | cons hd tl ih =>
    simp only [mapLookup] at h
    by_cases h2 : hd.1 == k
    · simp [mapHas, List.any_cons, h2]
    · rw [if_neg h2] at h
      simp only [mapHas, List.any_cons, Bool.or_eq_true]
      right
      simpa [mapHas] using ih h


/-! ### Step equations and lemmas for the date-gating filter -/

theorem filterLeads_cons_dup {store : List (String × StructuredLead)}
    {target now : Int} {lead : RawLead} (rest : List RawLead)
    (h : mapHas store (getLeadKey lead) = true) :
    filterLeads store target now (lead :: rest) =
      filterLeads store target now rest := by
  simp [filterLeads, h]

theorem filterLeads_cons_none {store : List (String × StructuredLead)}
    {target now : Int} {lead : RawLead} (rest : List RawLead)
    (h : mapHas store (getLeadKey lead) = false)
    (hd : parseDateOpt now (jsOr lead.vigencia lead.lastUpdated) = none) :
    filterLeads store target now (lead :: rest) =
      (⟨lead, getLeadKey lead, none⟩ :: (filterLeads store target now rest).1,
        (filterLeads store target now rest).2) := by
  simp [filterLeads, h, hd]

theorem filterLeads_cons_old {store : List (String × StructuredLead)}
    {target now : Int} {lead : RawLead} {d : Int} (rest : List RawLead)
    (h : mapHas store (getLeadKey lead) = false)
    (hd : parseDateOpt now (jsOr lead.vigencia lead.lastUpdated) = some d)
    (hlt : d < target) :
    filterLeads store target now (lead :: rest) = ([], true) := by
  simp [filterLeads, h, hd, hlt]

theorem filterLeads_cons_new {store : List (String × StructuredLead)}
    {target now : Int} {lead : RawLead} {d : Int} (rest : List RawLead)
    (h : mapHas store (getLeadKey lead) = false)
    (hd : parseDateOpt now (jsOr lead.vigencia lead.lastUpdated) = some d)
    (hlt : ¬ d < target) :
    filterLeads store target now (lead :: rest) =
      (⟨lead, getLeadKey lead, some d⟩ :: (filterLeads store target now rest).1,
        (filterLeads store target now rest).2) := by
  simp [filterLeads, h, hd, hlt]

theorem filterLeads_facts {store : List (String × StructuredLead)}
    {target now : Int} {leads : List RawLead} {item : FilterItem}
    (h : item ∈ (filterLeads store target now leads).1) :
    item.lead ∈ leads ∧ item.key = getLeadKey item.lead ∧
      mapHas store item.key = false ∧
      parseDateOpt now (jsOr item.lead.vigencia item.lead.lastUpdated) = item.leadDate ∧
      (item.leadDate = none ∨ ∃ d, item.leadDate = some d ∧ target ≤ d) := by
  induction leads with
  | nil => simp [filterLeads] at h
  | cons lead rest ih =>
    by_cases hk : mapHas store (getLeadKey lead)
    · rw [filterLeads_cons_dup rest hk] at h
      obtain ⟨h1, h2, h3, h4, h5⟩ := ih h
      exact ⟨List.mem_cons_of_mem _ h1, h2, h3, h4, h5⟩
    · have hk' : mapHas store (getLeadKey lead) = false := by simpa using hk
      rcases hd : parseDateOpt now (jsOr lead.vigencia lead.lastUpdated) with _ | d
      · rw [filterLeads_cons_none rest hk' hd] at h
        rcases List.mem_cons.mp h with h | h
        · subst h
          exact ⟨List.mem_cons_self _ _, rfl, hk', hd, Or.inl rfl⟩
        · obtain ⟨h1, h2, h3, h4, h5⟩ := ih h
          exact ⟨List.mem_cons_of_mem _ h1, h2, h3, h4, h5⟩
      · by_cases hlt : d < target
        · rw [filterLeads_cons_old rest hk' hd hlt] at h
          simp at h
        · rw [filterLeads_cons_new rest hk' hd hlt] at h
          rcases List.mem_cons.mp h with h | h
          · subst h
            exact ⟨List.mem_cons_self _ _, rfl, hk', hd,
              Or.inr ⟨d, rfl, le_of_not_lt hlt⟩⟩
          · obtain ⟨h1, h2, h3, h4, h5⟩ := ih h
            exact ⟨List.mem_cons_of_mem _ h1, h2, h3, h4, h5⟩

theorem filterLeads_stops {store : List (String × StructuredLead)}
    {target now : Int} (pre : List RawLead) (bad : RawLead) (post : List RawLead)
    (hpre : ∀ x ∈ pre, isNewOldB store target now x = false)
    (hbad : isNewOldB store target now bad = true) :
    filterLeads store target now (pre ++ bad :: post) =
      ((filterLeads store target now pre).1, true) := by
  induction pre with
  | nil =>
    simp only [isNewOldB, Bool.and_eq_true, Bool.not_eq_true'] at hbad
    obtain ⟨hk, hdate⟩ := hbad
    rcases hd : parseDateOpt now (jsOr bad.vigencia bad.lastUpdated) with _ | d
    · rw [hd] at hdate; simp at hdate
    · rw [hd] at hdate
      have hlt : d < target := by simpa using hdate
      simp only [List.nil_append]
      rw [filterLeads_cons_old post hk hd hlt]
      simp [filterLeads]
  | cons x pre' ih =>
    have hx := hpre x (List.mem_cons_self _ _)
    have hpre' : ∀ y ∈ pre', isNewOldB store target now y = false :=
      fun y hy => hpre y (List.mem_cons_of_mem _ hy)
    have happ : (x :: pre') ++ bad :: post = x :: (pre' ++ bad :: post) := rfl
    rw [happ]
    by_cases hk : mapHas store (getLeadKey x)
    · rw [filterLeads_cons_dup _ hk, filterLeads_cons_dup pre' hk, ih hpre']
    · have hk' : mapHas store (getLeadKey x) = false := by simpa using hk
      simp only [isNewOldB, hk', Bool.not_false, Bool.true_and] at hx
      rcases hd : parseDateOpt now (jsOr x.vigencia x.lastUpdated) with _ | d
      · rw [filterLeads_cons_none _ hk' hd, filterLeads_cons_none pre' hk' hd,
          ih hpre']
      · rw [hd] at hx
        have hnl : ¬ d < target := by simpa using hx
        rw [filterLeads_cons_new _ hk' hd hnl, filterLeads_cons_new pre' hk' hd hnl,
          ih hpre']

theorem filterLeads_undated_kept {store : List (String × StructuredLead)}
    {target now : Int} {lead : RawLead}
    (hk : mapHas store (getLeadKey lead) = false)
    (hd : parseDateOpt now (jsOr lead.vigencia lead.lastUpdated) = none) :
    filterLeads store target now [lead] =
      ([⟨lead, getLeadKey lead, none⟩], false) := by
  simp [filterLeads, hk, hd]

theorem mapSet_lookup_self (m : List (String × StructuredLead)) (k : String)
    (v : StructuredLead) : mapLookup (mapSet m k v) k = some v := by
  induction m with
  | nil => simp [mapSet, mapLookup]
  | cons hd tl ih =>
    by_cases hh : hd.1 == k
    · have hdk : hd.1 = k := by simpa using hh
      simp [mapSet, hdk, mapLookup]
    · simp only [mapSet, if_neg hh, mapLookup]
      simp [hh, ih]

theorem withAllLeads (st : LoopState) (x : List (String × StructuredLead)) :
    ({ st with allLeads := x } : LoopState).allLeads = x := rfl

/-! ### Lemmas about the processing loop -/

theorem processLeads_cons_full {env : Env} {opts : Options} {st : LoopState}
    {item : FilterItem} (rest : List FilterItem)
    (h : st.allLeads.length ≥ opts.maxLeads) :
    processLeads env opts st (item :: rest) = st := by
  simp [processLeads, h]

theorem processLeads_cons_go {env : Env} {opts : Options} {st : LoopState}
    {item : FilterItem} (rest : List FilterItem)
    (h : ¬ st.allLeads.length ≥ opts.maxLeads) :
    processLeads env opts st (item :: rest) =
      processLeads env opts
        { (if opts.extractDetails then { st with detailIdx := st.detailIdx + 1 } else st) with
          allLeads := mapSet
            (if opts.extractDetails then { st with detailIdx := st.detailIdx + 1 } else st).allLeads
            item.key (insertedValue env opts item.lead st.detailIdx) } rest := by
  simp [processLeads, h]

theorem detailBump_allLeads (st : LoopState) (b : Bool) :
    (if b then { st with detailIdx := st.detailIdx + 1 } else st).allLeads
      = st.allLeads := by
  by_cases h : b <;> simp [h]

theorem processLeads_forall {env : Env} {opts : Options}
    (P : StructuredLead → Prop) {st : LoopState} {items : List FilterItem}
    (h0 : ∀ kv ∈ st.allLeads, P kv.2)
    (hins : ∀ item ∈ items, ∀ idx, P (insertedValue env opts item.lead idx)) :
    ∀ kv ∈ (processLeads env opts st items).allLeads, P kv.2 := by
  induction items generalizing st with
  | nil => simpa [processLeads] using h0
  | cons item rest ih =>
    by_cases hfull : st.allLeads.length ≥ opts.maxLeads
    · rw [processLeads_cons_full rest hfull]; exact h0
    · rw [processLeads_cons_go rest hfull]
      apply ih
      · intro kv hkv
        simp only [detailBump_allLeads] at hkv
        rcases mapSet_mem hkv with h | h
        · exact h0 kv h
        · rw [h]
          exact hins item (List.mem_cons_self _ _) st.detailIdx
      · exact fun it hit idx => hins it (List.mem_cons_of_mem _ hit) idx

theorem processLeads_length_le (env : Env) (opts : Options) (st : LoopState)
    (items : List FilterItem) :
    st.allLeads.length ≤ (processLeads env opts st items).allLeads.length := by
  induction items generalizing st with
  | nil => simp [processLeads]
  | cons item rest ih =>
    by_cases hfull : st.allLeads.length ≥ opts.maxLeads
    · rw [processLeads_cons_full rest hfull]
    · rw [processLeads_cons_go rest hfull]
      refine le_trans ?_ (ih _)
      simp only [detailBump_allLeads, mapSet_length]
      by_cases h : mapHas st.allLeads item.key <;> simp [h]

theorem processLeads_has_mono {env : Env} {opts : Options} {st : LoopState}
    {k : String} (items : List FilterItem)
    (h : mapHas st.allLeads k = true) :
    mapHas (processLeads env opts st items).allLeads k = true := by
  induction items generalizing st with
  | nil => simpa [processLeads] using h
  | cons item rest ih =>
    by_cases hfull : st.allLeads.length ≥ opts.maxLeads
    · rw [processLeads_cons_full rest hfull]; exact h
    · rw [processLeads_cons_go rest hfull]
      apply ih
      simp only [detailBump_allLeads]
      exact mapSet_has_mono _ _ h

theorem processLeads_lookup_preserve {env : Env} {opts : Options}
    {st : LoopState} {k : String} (items : List FilterItem)
    (hne : ∀ item ∈ items, item.key ≠ k) :
    mapLookup (processLeads env opts st items).allLeads k
      = mapLookup st.allLeads k := by
  induction items generalizing st with
  | nil => simp [processLeads]
  | cons item rest ih =>
    by_cases hfull : st.allLeads.length ≥ opts.maxLeads
    · rw [processLeads_cons_full rest hfull]
    · rw [processLeads_cons_go rest hfull]
      rw [ih (fun it hit => hne it (List.mem_cons_of_mem _ hit))]
      simp only [detailBump_allLeads]
      exact mapSet_lookup_ne _
        (fun hh => hne item (List.mem_cons_self _ _) hh.symm)

/-! ### Lemmas about the end-of-scroll final rescan -/

theorem finalPass_cons_dup {env : Env} {target : Int} {st : LoopState}
    {lead : RawLead} (rest : List RawLead)
    (h : mapHas st.allLeads (getLeadKey lead) = true) :
    finalPass env target st (lead :: rest) = finalPass env target st rest := by
  simp [finalPass, h]

theorem finalPass_cons_none {env : Env} {target : Int} {st : LoopState}
    {lead : RawLead} (rest : List RawLead)
    (h : mapHas st.allLeads (getLeadKey lead) = false)
    (hd : parseDateOpt env.now (jsOr lead.vigencia lead.lastUpdated) = none) :
    finalPass env target st (lead :: rest) =
      finalPass env target
        { st with allLeads := (mapSet st.allLeads (getLeadKey lead)
            (structuredNull env lead)) } rest := by
  simp [finalPass, h, hd]

theorem finalPass_cons_keep {env : Env} {target : Int} {st : LoopState}
    {lead : RawLead} {d : Int} (rest : List RawLead)
    (h : mapHas st.allLeads (getLeadKey lead) = false)
    (hd : parseDateOpt env.now (jsOr lead.vigencia lead.lastUpdated) = some d)
    (hge : target ≤ d) :
    finalPass env target st (lead :: rest) =
      finalPass env target
        { st with allLeads := (mapSet st.allLeads (getLeadKey lead)
            (structuredNull env lead)) } rest := by
  simp [finalPass, h, hd, hge]

theorem finalPass_cons_drop {env : Env} {target : Int} {st : LoopState}
    {lead : RawLead} {d : Int} (rest : List RawLead)
    (h : mapHas st.allLeads (getLeadKey lead) = false)
    (hd : parseDateOpt env.now (jsOr lead.vigencia lead.lastUpdated) = some d)
    (hlt : ¬ target ≤ d) :
    finalPass env target st (lead :: rest) = finalPass env target st rest := by
  simp [finalPass, h, hd, hlt]

theorem finalPass_forall {env : Env} {target : Int}
    (P : StructuredLead → Prop) {st : LoopState} {finals : List RawLead}
    (h0 : ∀ kv ∈ st.allLeads, P kv.2)
    (hins : ∀ lead ∈ finals,
      (parseDateOpt env.now (jsOr lead.vigencia lead.lastUpdated) = none ∨
        ∃ d, parseDateOpt env.now (jsOr lead.vigencia lead.lastUpdated) = some d ∧
          target ≤ d) →
      P (structuredNull env lead)) :
    ∀ kv ∈ (finalPass env target st finals).allLeads, P kv.2 := by
  induction finals generalizing st with
  | nil => simpa [finalPass] using h0
  | cons lead rest ih =>
    have hrest : ∀ l ∈ rest,
        (parseDateOpt env.now (jsOr l.vigencia l.lastUpdated) = none ∨
          ∃ d, parseDateOpt env.now (jsOr l.vigencia l.lastUpdated) = some d ∧
            target ≤ d) → P (structuredNull env l) :=
      fun l hl => hins l (List.mem_cons_of_mem _ hl)
    by_cases hk : mapHas st.allLeads (getLeadKey lead)
    · rw [finalPass_cons_dup rest hk]; exact ih h0 hrest
    · have hk' : mapHas st.allLeads (getLeadKey lead) = false := by simpa using hk
      rcases hd : parseDateOpt env.now (jsOr lead.vigencia lead.lastUpdated) with _ | d
      · rw [finalPass_cons_none rest hk' hd]
        apply ih _ hrest
        intro kv hkv
        rcases mapSet_mem hkv with h | h
        · exact h0 kv h
        · rw [h]
          exact hins lead (List.mem_cons_self _ _) (Or.inl hd)
      · by_cases hge : target ≤ d
        · rw [finalPass_cons_keep rest hk' hd hge]
          apply ih _ hrest
          intro kv hkv
          rcases mapSet_mem hkv with h | h
          · exact h0 kv h
          · rw [h]
            exact hins lead (List.mem_cons_self _ _) (Or.inr ⟨d, hd, hge⟩)
        · rw [finalPass_cons_drop rest hk' hd hge]
          exact ih h0 hrest

theorem finalPass_has_mono {env : Env} {target : Int} {st : LoopState}
    {k : String} (finals : List RawLead)
    (h : mapHas st.allLeads k = true) :
    mapHas (finalPass env target st finals).allLeads k = true := by
  induction finals generalizing st with
  | nil => simpa [finalPass] using h
  | cons lead rest ih =>
    by_cases hk : mapHas st.allLeads (getLeadKey lead)
    · rw [finalPass_cons_dup rest hk]; exact ih h
    · have hk' : mapHas st.allLeads (getLeadKey lead) = false := by simpa using hk
      rcases hd : parseDateOpt env.now (jsOr lead.vigencia lead.lastUpdated) with _ | d
      · rw [finalPass_cons_none rest hk' hd]
        exact ih (mapSet_has_mono _ _ h)
      · by_cases hge : target ≤ d
        · rw [finalPass_cons_keep rest hk' hd hge]
          exact ih (mapSet_has_mono _ _ h)
        · rw [finalPass_cons_drop rest hk' hd hge]
          exact ih h

theorem finalPass_lookup_or_null {env : Env} {target : Int} {st : LoopState}
    {k : String} {v : StructuredLead} (finals : List RawLead)
    (h : mapLookup (finalPass env target st finals).allLeads k = some v) :
    mapLookup st.allLeads k = some v ∨ ∃ lead, v = structuredNull env lead := by
  induction finals generalizing st with
  | nil => left; simpa [finalPass] using h
  | cons lead rest ih =>
    by_cases hk : mapHas st.allLeads (getLeadKey lead)
    · rw [finalPass_cons_dup rest hk] at h; exact ih h
    · have hk' : mapHas st.allLeads (getLeadKey lead) = false := by simpa using hk
      rcases hd : parseDateOpt env.now (jsOr lead.vigencia lead.lastUpdated) with _ | d
      · rw [finalPass_cons_none rest hk' hd] at h
        rcases ih h with h2 | h2
        · rw [withAllLeads] at h2
          by_cases hkk : k = getLeadKey lead
          · subst hkk
            rw [mapSet_lookup_self] at h2
            exact Or.inr ⟨lead, (Option.some_inj.mp h2).symm⟩
          · rw [mapSet_lookup_ne _ hkk] at h2
            exact Or.inl h2
        · exact Or.inr h2
      · by_cases hge : target ≤ d
        · rw [finalPass_cons_keep rest hk' hd hge] at h
          rcases ih h with h2 | h2
          · rw [withAllLeads] at h2
            by_cases hkk : k = getLeadKey lead
            · subst hkk
              rw [mapSet_lookup_self] at h2
              exact Or.inr ⟨lead, (Option.some_inj.mp h2).symm⟩
            · rw [mapSet_lookup_ne _ hkk] at h2
              exact Or.inl h2
          · exact Or.inr h2
        · rw [finalPass_cons_drop rest hk' hd hge] at h
          exact ih h

/-! ### Field lemmas about parsed and structured leads -/

theorem parseLead_shape {t : String} {l : RawLead}
    (h : parseLeadFromText t = some l) :
    l.vigencia = none ∧ l.propertyName = none ∧ l.contactName = contactNameOf t := by
  simp only [parseLeadFromText] at h
  split at h
  · simp at h
  · split at h
    · simp at h
    · next name heq =>
      obtain rfl := Option.some_inj.mp h
      exact ⟨rfl, rfl, heq.symm⟩

theorem scanRows_vigNone {th : Option String} {ts : String} {rows : List String}
    {inT : Bool} {l : RawLead} (h : l ∈ scanRows th ts rows inT) :
    l.vigencia = none := by
  induction rows generalizing inT with
  | nil => simp [scanRows] at h
  | cons text rest ih =>
    simp only [scanRows] at h
    split at h
    · split at h
      · split at h
        · exact ih h
        · split at h
          · simp at h
          · exact ih h
      · exact ih h
    · split at h
      · exact ih h
      · split at h
        · next l' heq =>
          split at h
          · rcases List.mem_cons.mp h with h | h
            · subst h; exact (parseLead_shape heq).1
            · exact ih h
          · exact ih h
        · exact ih h

theorem visible_vigNone {env : Env} {opts : Options} {k : Nat} {l : RawLead}
    (hllm : ∀ j, ∀ x ∈ env.llm j, x.vigencia = none)
    (h : l ∈ visibleAt env opts k) : l.vigencia = none := by
  simp only [visibleAt, scrapeVisibleLeadsM] at h
  split at h <;> split at h <;>
    first
      | exact hllm k l h
      | exact scanRows_vigNone h

theorem insertedValue_lastUpdated (env : Env) (opts : Options) (lead : RawLead)
    (idx : Nat) :
    (insertedValue env opts lead idx).lastUpdated = jsOr lead.lastUpdated none := by
  by_cases h : opts.extractDetails <;> simp [insertedValue, mkStructured, h]

theorem insertedValue_nulls {env : Env} {opts : Options} (lead : RawLead)
    (idx : Nat) (h : opts.extractDetails = false) :
    (insertedValue env opts lead idx).contact.email = none ∧
    (insertedValue env opts lead idx).contact.phone = none ∧
    (insertedValue env opts lead idx).contact.cellPhone = none ∧
    (insertedValue env opts lead idx).property.id = none := by
  simp [insertedValue, mkStructured, h]

theorem structuredNull_nulls (env : Env) (lead : RawLead) :
    (structuredNull env lead).contact.email = none ∧
    (structuredNull env lead).contact.phone = none ∧
    (structuredNull env lead).contact.cellPhone = none ∧
    (structuredNull env lead).property.id = none :=
  ⟨rfl, rfl, rfl, rfl⟩

theorem structuredNull_lastUpdated (env : Env) (lead : RawLead) :
    (structuredNull env lead).lastUpdated = jsOr lead.lastUpdated none := rfl

theorem jsOr_none_left (b : Option String) : jsOr none b = b := rfl

theorem parseDateOpt_jsOr_none (now : Int) (x : Option String) :
    parseDateOpt now (jsOr x none) = parseDateOpt now x := by
  rcases x with _ | s
  · rfl
  · by_cases h : s = ""
    · subst h; simp [jsOr, truthy, parseDateOpt, parseDate]
    · simp [jsOr, truthy, h]

/-! ### Field-preservation lemmas for the processing loop -/

theorem processLeads_scrollCount (env : Env) (opts : Options) (st : LoopState)
    (items : List FilterItem) :
    (processLeads env opts st items).scrollCount = st.scrollCount := by
  induction items generalizing st with
  | nil => simp [processLeads]
  | cons item rest ih =>
    by_cases hfull : st.allLeads.length ≥ opts.maxLeads
    · rw [processLeads_cons_full rest hfull]
    · rw [processLeads_cons_go rest hfull]
      rw [ih]
      by_cases h : opts.extractDetails <;> simp [h]

theorem processLeads_noNew (env : Env) (opts : Options) (st : LoopState)
    (items : List FilterItem) :
    (processLeads env opts st items).noNewLeadsCount = st.noNewLeadsCount := by
  induction items generalizing st with
  | nil => simp [processLeads]
  | cons item rest ih =>
    by_cases hfull : st.allLeads.length ≥ opts.maxLeads
    · rw [processLeads_cons_full rest hfull]
    · rw [processLeads_cons_go rest hfull]
      rw [ih]
      by_cases h : opts.extractDetails <;> simp [h]

theorem passState_scrollCount (env : Env) (target : Int) (opts : Options)
    (st : LoopState) :
    (passState env target opts st).1.scrollCount = st.scrollCount := by
  simp [passState, processLeads_scrollCount]

theorem passState_noNew (env : Env) (target : Int) (opts : Options)
    (st : LoopState) :
    (passState env target opts st).1.noNewLeadsCount = st.noNewLeadsCount := by
  simp [passState, processLeads_noNew]

theorem passState_length_ge (env : Env) (target : Int) (opts : Options)
    (st : LoopState) :
    st.allLeads.length ≤ (passState env target opts st).1.allLeads.length := by
  simp only [passState]
  have h := processLeads_length_le env opts ({ st with scanIdx := st.scanIdx + 1, reachedTargetDate := (st.reachedTargetDate || (filterLeads st.allLeads target env.now (visibleAt env opts st.scanIdx)).2) }) ((filterLeads st.allLeads target env.now (visibleAt env opts st.scanIdx)).1)
  exact h

theorem passState_preserves (P : StructuredLead → Prop) {env : Env}
    {target : Int} {opts : Options} {st : LoopState}
    (hins : ∀ lead, lead ∈ visibleAt env opts st.scanIdx →
      dateOK env target lead → ∀ idx, P (insertedValue env opts lead idx))
    (h0 : ∀ kv ∈ st.allLeads, P kv.2) :
    ∀ kv ∈ (passState env target opts st).1.allLeads, P kv.2 := by
  simp only [passState]
  apply processLeads_forall P
  · exact h0
  · intro item hitem idx
    obtain ⟨h1, _, _, h4, h5⟩ := filterLeads_facts hitem
    refine hins item.lead h1 ?_ idx
    rcases h5 with h5 | ⟨d, h5, h6⟩
    · exact Or.inl (by rw [h4, h5])
    · exact Or.inr ⟨d, by rw [h4, h5], h6⟩


/-! ### Lemmas about one loop iteration -/

theorem scrollStep_next_desc {env : Env} {target : Int} {opts : Options}
    {st2 st' : LoopState}
    (h : scrollStep env target opts st2 = .next st') :
    st' = { st2 with scrollCount := st2.scrollCount + 1 } := by
  simp only [scrollStep] at h
  split at h
  · exact absurd h (by simp)
  · exact ((StepRes.next.injEq _ _).mp h).symm

theorem scrollStep_done_desc {env : Env} {target : Int} {opts : Options}
    {st2 st' : LoopState}
    (h : scrollStep env target opts st2 = .done st') :
    st' = finalPass env target
      { st2 with scrollCount := st2.scrollCount + 1, scanIdx := st2.scanIdx + 1 }
      (visibleAt env opts st2.scanIdx) := by
  simp only [scrollStep] at h
  split at h
  · exact ((StepRes.done.injEq _ _).mp h).symm
  · exact absurd h (by simp)

theorem afterPass_next_desc {env : Env} {target : Int} {opts : Options}
    {st1 st' : LoopState} {prev : Nat}
    (h : afterPass env target opts st1 prev = .next st') :
    st'.allLeads = st1.allLeads ∧ st'.scrollCount = st1.scrollCount + 1 ∧
    (st1.allLeads.length - prev = 0 →
      st'.noNewLeadsCount = st1.noNewLeadsCount + 1) ∧
    (st1.allLeads.length - prev ≠ 0 → st'.noNewLeadsCount = 0) := by
  simp only [afterPass] at h
  split at h
  · next hzero =>
    have hz : st1.allLeads.length - prev = 0 := by simpa using hzero
    rw [scrollStep_next_desc h]
    exact ⟨rfl, rfl, fun _ => rfl, fun hne => absurd hz hne⟩
  · next hzero =>
    have hz : st1.allLeads.length - prev ≠ 0 := by simpa using hzero
    rw [scrollStep_next_desc h]
    exact ⟨rfl, rfl, fun he => absurd he hz, fun _ => rfl⟩

theorem afterPass_done_desc {env : Env} {target : Int} {opts : Options}
    {st1 st' : LoopState} {prev : Nat}
    (h : afterPass env target opts st1 prev = .done st') :
    ∃ st2 : LoopState, st2.allLeads = st1.allLeads ∧
      st' = finalPass env target
        { st2 with scrollCount := st2.scrollCount + 1, scanIdx := st2.scanIdx + 1 }
        (visibleAt env opts st2.scanIdx) := by
  simp only [afterPass] at h
  split at h
  · exact ⟨{ st1 with noNewLeadsCount := st1.noNewLeadsCount + 1 }, rfl,
      scrollStep_done_desc h⟩
  · exact ⟨{ st1 with noNewLeadsCount := 0 }, rfl, scrollStep_done_desc h⟩

theorem loopIter_next_desc {env : Env} {target : Int} {opts : Options}
    {st st' : LoopState}
    (h : loopIterCore env target opts st = .next st') :
    st'.scrollCount = st.scrollCount + 1 ∧
    st'.allLeads = (passState env target opts st).1.allLeads ∧
    (st'.allLeads.length = st.allLeads.length →
      st'.noNewLeadsCount = st.noNewLeadsCount + 1) ∧
    (st'.allLeads.length ≠ st.allLeads.length →
      st'.noNewLeadsCount = 0) := by
  simp only [loopIterCore] at h
  split at h
  · exact absurd h (by simp)
  · obtain ⟨ha, hs, hz, hnz⟩ := afterPass_next_desc h
    refine ⟨?_, ha, ?_, ?_⟩
    · rw [hs, passState_scrollCount]
    · intro hlen
      rw [ha] at hlen
      have : (passState env target opts st).1.allLeads.length - st.allLeads.length = 0 := by
        rw [hlen]; exact Nat.sub_self _
      rw [hz this, passState_noNew]
    · intro hlen
      rw [ha] at hlen
      have hge := passState_length_ge env target opts st
      have : (passState env target opts st).1.allLeads.length - st.allLeads.length ≠ 0 := by
        intro hz2
        exact hlen (le_antisymm (Nat.sub_eq_zero_iff_le.mp hz2) hge)
      exact hnz this

theorem loopIter_preserves (P : StructuredLead → Prop) {env : Env}
    {target : Int} {opts : Options} {st : LoopState}
    (hins : ∀ (k : Nat) (lead : RawLead), lead ∈ visibleAt env opts k →
      dateOK env target lead →
      (∀ idx, P (insertedValue env opts lead idx)) ∧ P (structuredNull env lead))
    (h0 : ∀ kv ∈ st.allLeads, P kv.2) :
    (∀ st', loopIterCore env target opts st = .done st' →
      ∀ kv ∈ st'.allLeads, P kv.2) ∧
    (∀ st', loopIterCore env target opts st = .next st' →
      ∀ kv ∈ st'.allLeads, P kv.2) := by
  have hpass : ∀ kv ∈ (passState env target opts st).1.allLeads, P kv.2 :=
    passState_preserves P
      (fun lead hv hd idx => (hins st.scanIdx lead hv hd).1 idx) h0
  constructor
  · intro st' h
    simp only [loopIterCore] at h
    split at h
    · have hst : _ = st' := (StepRes.done.injEq _ _).mp h
      rw [← hst]
      exact hpass
    · obtain ⟨st2, ha, hf⟩ := afterPass_done_desc h
      rw [hf]
      apply finalPass_forall P
      · intro kv hkv
        apply hpass
        rw [← ha]
        exact hkv
      · intro lead hl hcond
        exact (hins _ lead hl hcond).2
  · intro st' h
    have hd := loopIter_next_desc h
    rw [hd.2.1]
    exact hpass

/-! ### Lemmas about the fueled while loop -/

theorem loopFuelE_guard_false {env : Env} {target : Int} {opts : Options}
    {st : LoopState} (f : Nat)
    (h : (st.scrollCount < opts.maxScrolls && st.allLeads.length < opts.maxLeads
        && st.noNewLeadsCount < 5 && !st.reachedTargetDate) = false) :
    loopFuelE env target opts f st = .ok st := by
  cases f with
  | zero => rfl
  | succ f => simp [loopFuelE, h]

theorem loopFuelE_ext {env : Env} {target : Int} {opts : Options} :
    ∀ (f1 f2 : Nat) (st : LoopState),
      opts.maxScrolls + 1 - st.scrollCount ≤ f1 →
      opts.maxScrolls + 1 - st.scrollCount ≤ f2 →
      loopFuelE env target opts f1 st = loopFuelE env target opts f2 st := by
  intro f1
  induction f1 with
  | zero =>
    intro f2 st h1 h2
    have hsc : opts.maxScrolls + 1 ≤ st.scrollCount :=
      Nat.sub_eq_zero_iff_le.mp (Nat.le_zero.mp h1)
    have hng : ¬ st.scrollCount < opts.maxScrolls := by omega
    have hguard : (st.scrollCount < opts.maxScrolls
        && st.allLeads.length < opts.maxLeads
        && st.noNewLeadsCount < 5 && !st.reachedTargetDate) = false := by
      simp [hng]
    rw [loopFuelE_guard_false 0 hguard, loopFuelE_guard_false f2 hguard]
  | succ f1 ih =>
    intro f2 st h1 h2
    cases f2 with
    | zero =>
      have hsc : opts.maxScrolls + 1 ≤ st.scrollCount :=
        Nat.sub_eq_zero_iff_le.mp (Nat.le_zero.mp h2)
      have hng : ¬ st.scrollCount < opts.maxScrolls := by omega
      have hguard : (st.scrollCount < opts.maxScrolls
          && st.allLeads.length < opts.maxLeads
          && st.noNewLeadsCount < 5 && !st.reachedTargetDate) = false := by
        simp [hng]
      rw [loopFuelE_guard_false (f1 + 1) hguard, loopFuelE_guard_false 0 hguard]
    | succ f2 =>
      by_cases hg : (st.scrollCount < opts.maxScrolls
          && st.allLeads.length < opts.maxLeads
          && st.noNewLeadsCount < 5 && !st.reachedTargetDate) = true
      · simp only [loopFuelE, hg, if_true]
        cases hc : checkSessionActiveE env.currentUrl with
        | error e => rfl
        | ok u =>
          cases hi : loopIterCore env target opts st with
          | done st' => rfl
          | next st' =>
            have hsc : st'.scrollCount = st.scrollCount + 1 :=
              (loopIter_next_desc hi).1
            have hscmax : st.scrollCount < opts.maxScrolls := by
              by_contra hcon
              simp [hcon] at hg
            apply ih
            · rw [hsc]; omega
            · rw [hsc]; omega
      · have hguard : (st.scrollCount < opts.maxScrolls
            && st.allLeads.length < opts.maxLeads
            && st.noNewLeadsCount < 5 && !st.reachedTargetDate) = false := by
          simpa using hg
        rw [loopFuelE_guard_false (f1 + 1) hguard, loopFuelE_guard_false (f2 + 1) hguard]

theorem loopFuelE_preserves (P : StructuredLead → Prop) {env : Env}
    {target : Int} {opts : Options}
    (hins : ∀ (k : Nat) (lead : RawLead), lead ∈ visibleAt env opts k →
      dateOK env target lead →
      (∀ idx, P (insertedValue env opts lead idx)) ∧ P (structuredNull env lead)) :
    ∀ (f : Nat) (st stF : LoopState), (∀ kv ∈ st.allLeads, P kv.2) →
      loopFuelE env target opts f st = .ok stF →
      ∀ kv ∈ stF.allLeads, P kv.2 := by
  intro f
  induction f with
  | zero =>
    intro st stF h0 h
    obtain rfl : st = stF := by simpa [loopFuelE] using h
    exact h0
  | succ f ih =>
    intro st stF h0 h
    simp only [loopFuelE] at h
    split at h
    · cases hc : checkSessionActiveE env.currentUrl with
      | error e => rw [hc] at h; simp at h
      | ok u =>
        rw [hc] at h
        cases hi : loopIterCore env target opts st with
        | done st' =>
          rw [hi] at h
          obtain rfl : st' = stF := by simpa using h
          exact (loopIter_preserves P hins h0).1 st' hi
        | next st' =>
          rw [hi] at h
          exact ih st' stF ((loopIter_preserves P hins h0).2 st' hi) h
    · obtain rfl : st = stF := by simpa using h
      exact h0

theorem run_preserves (P : StructuredLead → Prop) {env : Env} {target : Int}
    {opts : Options} {leads : List StructuredLead}
    (hins : ∀ (k : Nat) (lead : RawLead), lead ∈ visibleAt env opts k →
      dateOK env target lead →
      (∀ idx, P (insertedValue env opts lead idx)) ∧ P (structuredNull env lead))
    (h : scrapeLeadsUntilDateE env target opts = .ok leads) :
    ∀ l ∈ leads, P l := by
  simp only [scrapeLeadsUntilDateE] at h
  cases hc : checkSessionActiveE env.currentUrl with
  | error e => rw [hc] at h; simp at h
  | ok u =>
    rw [hc] at h
    cases hf : loopFuelE env target opts (opts.maxScrolls + 1) {} with
    | error e => rw [hf] at h; simp at h
    | ok stF =>
      rw [hf] at h
      have hleads : stF.allLeads.map (fun kv => kv.2) = leads := by simpa using h
      intro l hl
      rw [← hleads] at hl
      obtain ⟨kv, hkv, rfl⟩ := List.mem_map.mp hl
      exact loopFuelE_preserves P hins _ {} stF (by simp) hf kv hkv

/-! ### The claims -/

/-- C4 counterexample: the oracle point `"26/11/2025 08:15"` does not resolve
to that local instant including the hour and minute — generic parsing rejects
the day-first string, and the explicit `DD/MM/YYYY` rule captures only the
date, so the result is the local midnight of 26/11/2025, 495 minutes short of
the claimed instant. -/
theorem claim_C4_time_dropped :
    parseDate 0 "26/11/2025 08:15" = some (jsMakeDate 2025 10 26) ∧
    jsMakeDate 2025 10 26 = 29401920 ∧
    ((29401920 : Int) == 29401920 + (8 * 60 + 15)) = false := by
  exact ⟨rfl, rfl, rfl⟩

/-- C4 (amended): `"8 años 182 días"` resolves to now − (8×365+182) days and
`"hace 3 horas"` to now − 3 hours; `"26/11/2025 08:15"` resolves to the local
midnight of that calendar day (its HH:MM is discarded); an unparseable string
resolves to `none`; and the relative-duration rule is tried first, winning
over every later rule whenever its guard and a positive day total hold (shown
both generically and on a string also matching the `DD/MM/YYYY` rule). -/
theorem claim_C4_date_resolution (now : Int) :
    parseDate now "8 años 182 días" = some (now - 1440 * 3102) ∧
    parseDate now "hace 3 horas" = some (now - 60 * 3) ∧
    parseDate now "26/11/2025 08:15" = some (jsMakeDate 2025 10 26) ∧
    parseDate now "sin fecha" = none ∧
    parseDate now "1 día 26/11/2025" = some (now - 1440 * 1) ∧
    (∀ s : String, ¬ s = "" →
      relGuard ((trimChars s.toList).map Char.toLower) = true →
      0 < relTotal ((trimChars s.toList).map Char.toLower) →
      parseDate now s =
        some (now - 1440 * (relTotal ((trimChars s.toList).map Char.toLower) : Int))) := by
  refine ⟨rfl, rfl, rfl, rfl, rfl, ?_⟩
  intro s h1 h2 h3
  simp only [parseDate, if_neg h1]
  rw [if_pos]
  exact (Bool.and_eq_true _ _).mpr ⟨h2, decide_eq_true h3⟩

/-- C4 witness: the amended theorem applied at `now = 7`, with its
rule-priority conjunct discharged on the concrete string `"2 días"`. -/
theorem claim_C4_date_resolution_witness :
    parseDate 7 "8 años 182 días" = some (7 - 1440 * 3102) ∧
    parseDate 7 "2 días" = some (7 - 1440 * 2) := by
  refine ⟨(claim_C4_date_resolution 7).1, ?_⟩
  have h := (claim_C4_date_resolution 7).2.2.2.2.2 "2 días" (by decide)
    (by decide) (by decide)
  simpa using h

/-- C2: two parsed rows with the same contact name but different property
address and different last-update stamp receive the SAME deduplication key
(`getLeadKey` reads `propertyName` and `vigencia`, fields `parseLeadFromText`
never produces), so one pass stores them as a single entry — refuting the
claimed composite identity over (name, address, stamp). -/
theorem claim_C2_key_ignores_address_and_stamp :
    parseLeadFromText "Juan Perez (Ana Gomez) Colombres 148 26/11/2025 08:15"
      = some leadJuan1 ∧
    parseLeadFromText "Juan Perez (Ana Gomez) Lavalle 300 01/01/2020 09:00"
      = some leadJuan2 ∧
    leadJuan1.propertyAddress = some "Colombres 148" ∧
    leadJuan2.propertyAddress = some "Lavalle 300" ∧
    leadJuan1.lastUpdated = some "26/11/2025 08:15" ∧
    leadJuan2.lastUpdated = some "01/01/2020 09:00" ∧
    getLeadKey leadJuan1 = "juan perez--" ∧
    getLeadKey leadJuan2 = "juan perez--" ∧
    (processLeads baseEnv {} {}
      (filterLeads [] 0 0 [leadJuan1, leadJuan2]).1).allLeads.length = 1 := by
  exact ⟨rfl, rfl, rfl, rfl, rfl, rfl, rfl, rfl, rfl⟩

/-- C1: when the page is redirected to `/not_connected`, `SessionClosedError`
propagates out of the collection loop un-swallowed (the repeated catch blocks
re-throw it), but `scrapeLeads` converts it into a failure object WITHOUT an
`isSessionClosed` field, so the route's dedicated `SESSION_CLOSED` branch
never fires and the external layer sees only a generic 500. -/
theorem claim_C1_session_code_lost :
    scrapeLeadsUntilDateE closedEnv 0 {} = .error .sessionClosed ∧
    (∀ fb : List RawLead,
      catchNonSession (Except.error ScrapeErr.sessionClosed) fb
        = .error .sessionClosed) ∧
    scrapeLeadsModel orchClosed 0 {} =
      { success := false, leads := [], metadata := none,
        error := some sessionClosedMessage, isSessionClosed := none } ∧
    routeScrape orchClosed reqOk = .serverError (some sessionClosedMessage) none ∧
    ((routeScrape orchClosed reqOk == .serverError (some sessionClosedMessage)
      (some "SESSION_CLOSED")) = false) := by
  refine ⟨rfl, fun fb => rfl, rfl, rfl, by decide⟩

/-- C9: `scrapeLeads` always returns a structured object: on success the
metadata's `totalLeads` equals the length of the returned leads; on failure
the leads array is empty (partial results discarded) and an error message is
present. -/
theorem claim_C9_structured_result :
    ∀ (oe : OrchEnv) (target : Int) (opts : Options),
      ((scrapeLeadsModel oe target opts).success = true ∧
        ∃ m, (scrapeLeadsModel oe target opts).metadata = some m ∧
          m.totalLeads = (scrapeLeadsModel oe target opts).leads.length) ∨
      ((scrapeLeadsModel oe target opts).success = false ∧
        (scrapeLeadsModel oe target opts).leads = [] ∧
        ∃ msg, (scrapeLeadsModel oe target opts).error = some msg) := by
  intro oe target opts
  cases h : scrapeLeadsPipeline oe target opts with
  | ok leads =>
    left
    simp [scrapeLeadsModel, h]
  | error e =>
    right
    simp [scrapeLeadsModel, h]

/-- C7: with `maxLeads := 1` a run on `overflowEnv` returns 3 leads — the
end-of-scroll final rescan inserts new leads without any `maxLeads` check, so
the configured maximum does not bound the returned array. -/
theorem claim_C7_maxLeads_not_a_bound :
    scrapeLeadsUntilDateE overflowEnv 0 { maxLeads := 1 } = .ok runOverflow ∧
    runOverflow.length = 3 ∧
    ({ maxLeads := 1 } : Options).maxLeads = 1 := by
  exact ⟨rfl, rfl, rfl⟩

/-- C3: in one pass the first NEW lead strictly older than the cutoff sets
the reached flag and ends the pass (rows after it contribute nothing); an
undated new lead passes the gate; and in any completed run, every returned
lead whose stored stamp resolves to a date resolves at or after the cutoff
(the LLM-fallback hypothesis records that those leads, like all parsed ones,
carry no `vigencia` field). -/
theorem claim_C3_cutoff_gate :
    (∀ (store : List (String × StructuredLead)) (target now : Int)
        (pre : List RawLead) (bad : RawLead) (post : List RawLead),
      (∀ x ∈ pre, isNewOldB store target now x = false) →
      isNewOldB store target now bad = true →
      filterLeads store target now (pre ++ bad :: post) =
        ((filterLeads store target now pre).1, true)) ∧
    (∀ (store : List (String × StructuredLead)) (target now : Int)
        (lead : RawLead),
      mapHas store (getLeadKey lead) = false →
      parseDateOpt now (jsOr lead.vigencia lead.lastUpdated) = none →
      filterLeads store target now [lead] =
        ([⟨lead, getLeadKey lead, none⟩], false)) ∧
    (∀ (env : Env) (target : Int) (opts : Options) (leads : List StructuredLead),
      (∀ k, ∀ l ∈ env.llm k, l.vigencia = none) →
      scrapeLeadsUntilDateE env target opts = .ok leads →
      ∀ l ∈ leads, ∀ d, parseDateOpt env.now l.lastUpdated = some d →
        target ≤ d) := by
  refine ⟨fun store target now pre bad post => filterLeads_stops pre bad post,
    fun store target now lead => filterLeads_undated_kept, ?_⟩
  intro env target opts leads hllm hrun
  have hP := run_preserves
    (fun sl => ∀ d, parseDateOpt env.now sl.lastUpdated = some d → target ≤ d)
    ?_ hrun
  · exact hP
  · intro k lead hvis hdok
    have hvig : lead.vigencia = none := visible_vigNone hllm hvis
    have hdok' : ∀ d, parseDateOpt env.now lead.lastUpdated = some d → target ≤ d := by
      intro d hd
      simp only [dateOK] at hdok
      rw [hvig, jsOr_none_left] at hdok
      rcases hdok with h | ⟨d', hd', hge⟩
      · rw [h] at hd; exact absurd hd (by simp)
      · rw [hd'] at hd
        rw [← Option.some_inj.mp hd]
        exact hge
    constructor
    · intro idx d hd
      rw [insertedValue_lastUpdated, parseDateOpt_jsOr_none] at hd
      exact hdok' d hd
    · intro d hd
      rw [structuredNull_lastUpdated, parseDateOpt_jsOr_none] at hd
      exact hdok' d hd

/-- C3 witness: the pass-level conjuncts at a fresh store with the concrete
recent and 2020 rows, and the run-level invariant on the concrete cutoff run
(whose single returned lead carries the recent stamp). -/
theorem claim_C3_cutoff_gate_witness :
    filterLeads [] cutoff2024 0 ([leadAnaNew] ++ leadBobOld :: []) =
      ((filterLeads [] cutoff2024 0 [leadAnaNew]).1, true) ∧
    filterLeads [] 0 0 [leadAnaUndated] =
      ([⟨leadAnaUndated, getLeadKey leadAnaUndated, none⟩], false) ∧
    runCutoff.length = 1 ∧
    (∀ l ∈ runCutoff, ∀ d, parseDateOpt cutoffEnv.now l.lastUpdated = some d →
      cutoff2024 ≤ d) := by
  refine ⟨?_, ?_, rfl, ?_⟩
  · exact claim_C3_cutoff_gate.1 [] cutoff2024 0 [leadAnaNew] leadBobOld []
      (by intro x hx; fin_cases hx; decide) (by decide)
  · exact claim_C3_cutoff_gate.2.1 [] 0 0 leadAnaUndated (by decide) (by decide)
  · exact claim_C3_cutoff_gate.2.2 cutoffEnv cutoff2024 {} runCutoff
      (fun k l hl => absurd hl (List.not_mem_nil l)) rfl

/-- C5: `parseLeadFromText` (a total function — it can never throw) yields a
lead exactly when the row text is nonempty and a contact name is found; the
lead's contact name is that name, and a missing timestamp leaves both
`lastUpdated` and `propertyAddress` null without blocking the lead. -/
theorem claim_C5_parser_tolerance :
    ∀ text : String,
      ((parseLeadFromText text).isSome = true ↔
        (¬ text = "" ∧ (contactNameOf text).isSome = true)) ∧
      (∀ l, parseLeadFromText text = some l →
        l.contactName = contactNameOf text ∧ l.contactName.isSome = true ∧
        (findDateTok (collapseWsTrim text.toList) 0 = none →
          l.lastUpdated = none ∧ l.propertyAddress = none)) := by
  intro text
  by_cases htext : text = ""
  · subst htext
    constructor
    · simp [parseLeadFromText]
    · intro l hl
      simp [parseLeadFromText] at hl
  · cases hc : contactNameOf text with
    | none =>
      constructor
      · simp [parseLeadFromText, htext, hc]
      · intro l hl
        simp [parseLeadFromText, htext, hc] at hl
    | some name =>
      constructor
      · simp [parseLeadFromText, htext, hc]
      · intro l hl
        simp only [parseLeadFromText, if_neg htext, hc] at hl
        obtain rfl := Option.some_inj.mp hl
        refine ⟨?_, ?_, ?_⟩
        · rfl
        · rfl
        · intro hdate
          have hdate2 : findDateTok (collapseWsTrim text.data) 0 = none := hdate
          constructor <;> simp [hdate2]

/-- C5 witness: a row with a name and agent but no date or address yields a
lead with null date and address; the parser's some-ness matches the presence
of a contact name on that row and on a nameless row. -/
theorem claim_C5_parser_tolerance_witness :
    (parseLeadFromText "Ana (Ag)").isSome = true ∧
    leadAnaUndated.contactName = some "Ana" ∧
    leadAnaUndated.lastUpdated = none ∧
    leadAnaUndated.propertyAddress = none ∧
    (parseLeadFromText "26/11/2025 08:15").isSome = false := by
  have h := claim_C5_parser_tolerance "Ana (Ag)"
  have h2 := h.2 leadAnaUndated rfl
  refine ⟨h.1.mpr ⟨by decide, by decide⟩, ?_, (h2.2.2 (by decide)).1,
    (h2.2.2 (by decide)).2, by decide⟩
  rw [h2.1]
  decide

/-- C6: the collection loop always terminates within `maxScrolls` passes —
extra fuel beyond `maxScrolls + 1` never changes the outcome; a continuing
pass that added no leads increments the stall counter while one that added
leads resets it; five accumulated stalls, or the `maxScrolls` ceiling, stop
the loop at once; and an end-of-scroll offset forces the scroll step to
break out after its final rescan. -/
theorem claim_C6_termination :
    (∀ (env : Env) (target : Int) (opts : Options) (k : Nat),
      loopFuelE env target opts (opts.maxScrolls + 1 + k) {} =
        loopFuelE env target opts (opts.maxScrolls + 1) {}) ∧
    (∀ (env : Env) (target : Int) (opts : Options) (st st' : LoopState),
      loopIterCore env target opts st = .next st' →
      (st'.allLeads.length = st.allLeads.length →
        st'.noNewLeadsCount = st.noNewLeadsCount + 1) ∧
      (st'.allLeads.length ≠ st.allLeads.length → st'.noNewLeadsCount = 0)) ∧
    (∀ (env : Env) (target : Int) (opts : Options) (f : Nat) (st : LoopState),
      5 ≤ st.noNewLeadsCount → loopFuelE env target opts f st = .ok st) ∧
    (∀ (env : Env) (target : Int) (opts : Options) (f : Nat) (st : LoopState),
      opts.maxScrolls ≤ st.scrollCount → loopFuelE env target opts f st = .ok st) ∧
    (∀ (env : Env) (target : Int) (opts : Options) (st2 : LoopState),
      100 * (env.scroll st2.scrollCount).newScroll ≥
        99 * (env.scroll st2.scrollCount).maxScroll →
      ∃ stD, scrollStep env target opts st2 = .done stD) := by
  refine ⟨?_, ?_, ?_, ?_, ?_⟩
  · intro env target opts k
    apply loopFuelE_ext
    · simp
    · simp
  · intro env target opts st st' h
    have hd := loopIter_next_desc h
    exact ⟨hd.2.2.1, hd.2.2.2⟩
  · intro env target opts f st h
    apply loopFuelE_guard_false
    have : ¬ st.noNewLeadsCount < 5 := by omega
    simp [this]
  · intro env target opts f st h
    apply loopFuelE_guard_false
    have : ¬ st.scrollCount < opts.maxScrolls := by omega
    simp [this]
  · intro env target opts st2 h
    simp only [scrollStep]
    rw [if_pos h]
    exact ⟨_, rfl⟩

/-- C6 witness: the conjuncts at the empty page: extra fuel 7 is inert, the
first (empty) pass bumps the stall counter from 0 to 1, a state with 5
stalls or with 200 scrolls exits untouched, and the end-of-scroll page
breaks out of the scroll step. -/
theorem claim_C6_termination_witness :
    loopFuelE baseEnv 0 {} (201 + 7) {} = loopFuelE baseEnv 0 {} 201 {} ∧
    stepBase.noNewLeadsCount = 0 + 1 ∧
    loopFuelE baseEnv 0 {} 3 { noNewLeadsCount := 5 } =
      .ok { noNewLeadsCount := 5 } ∧
    loopFuelE baseEnv 0 {} 3 { scrollCount := 200 } =
      .ok { scrollCount := 200 } ∧
    (∃ stD, scrollStep onePassEnv 0 {} {} = .done stD) := by
  refine ⟨?_, ?_, ?_, ?_, ?_⟩
  · exact claim_C6_termination.1 baseEnv 0 {} 7
  · have h : loopIterCore baseEnv 0 {} {} = .next stepBase := rfl
    exact (claim_C6_termination.2.1 baseEnv 0 {} {} stepBase h).1 rfl
  · exact claim_C6_termination.2.2.1 baseEnv 0 {} 3 { noNewLeadsCount := 5 }
      (by decide)
  · exact claim_C6_termination.2.2.2.1 baseEnv 0 {} 3 { scrollCount := 200 }
      (by decide)
  · exact claim_C6_termination.2.2.2.2 onePassEnv 0 {} {} (by decide)

/-- C8 counterexample: with detail extraction on, two rows of one pass that
share a dedup key (same contact name) are both processed; the second
`Map.set` overwrites the entry wholesale, replacing the non-null email
fetched for the first with the null of the second — size stays 1, but the
stored non-null field is lost. -/
theorem claim_C8_duplicate_overwrites :
    getLeadKey leadJuan1 = getLeadKey leadJuan2 ∧
    (processLeads dupEnv optsDetails {}
      (filterLeads [] 0 0 [leadJuan1]).1).allLeads.length = 1 ∧
    (mapLookup (processLeads dupEnv optsDetails {}
        (filterLeads [] 0 0 [leadJuan1]).1).allLeads
      (getLeadKey leadJuan1)).map (fun v => v.contact.email)
      = some (some "juan@mail.com") ∧
    (processLeads dupEnv optsDetails {}
      (filterLeads [] 0 0 [leadJuan1, leadJuan2]).1).allLeads.length = 1 ∧
    (mapLookup (processLeads dupEnv optsDetails {}
        (filterLeads [] 0 0 [leadJuan1, leadJuan2]).1).allLeads
      (getLeadKey leadJuan1)).map (fun v => v.contact.email)
      = some none := by
  exact ⟨rfl, rfl, rfl, rfl, rfl⟩

/-- C8 (amended): absorbing a lead whose key is already stored never changes
the map's size; `Map.set` never removes an entry; the date-gating filter
skips every key already stored at the start of the pass, so processing a
pass leaves every previously-stored entry byte-for-byte unchanged — only a
duplicate key arising within a single pass (the counterexample) can
overwrite an entry and lose its non-null fields. -/
theorem claim_C8_store_monotone :
    (∀ (m : List (String × StructuredLead)) (k : String) (v : StructuredLead),
      mapHas m k = true → (mapSet m k v).length = m.length) ∧
    (∀ (m : List (String × StructuredLead)) (k k' : String) (v : StructuredLead),
      mapHas m k' = true → mapHas (mapSet m k v) k' = true) ∧
    (∀ (store : List (String × StructuredLead)) (target now : Int)
        (leads : List RawLead) (item : FilterItem),
      item ∈ (filterLeads store target now leads).1 →
      mapHas store item.key = false) ∧
    (∀ (env : Env) (opts : Options) (st : LoopState) (target : Int)
        (leads : List RawLead) (k : String),
      mapHas st.allLeads k = true →
      mapLookup (processLeads env opts st
          (filterLeads st.allLeads target env.now leads).1).allLeads k
        = mapLookup st.allLeads k) := by
  refine ⟨?_, ?_, ?_, ?_⟩
  · intro m k v h
    rw [mapSet_length, if_pos h]
  · intro m k k' v h
    exact mapSet_has_mono k v h
  · intro store target now leads item h
    exact (filterLeads_facts h).2.2.1
  · intro env opts st target leads k h
    apply processLeads_lookup_preserve
    intro item hitem heq
    have hfalse := (filterLeads_facts hitem).2.2.1
    rw [heq] at hfalse
    rw [h] at hfalse
    exact absurd hfalse (by simp)

/-- C8 witness: the amended conjuncts at concrete inputs — re-setting the
stored key keeps size 1 and keeps the key present, and a pass over a row
whose key is already stored leaves the stored entry unchanged. -/
theorem claim_C8_store_monotone_witness :
    (mapSet [(getLeadKey leadJuan1, slW)] (getLeadKey leadJuan1) slW).length = 1 ∧
    mapHas (mapSet [(getLeadKey leadJuan1, slW)] "other" slW)
      (getLeadKey leadJuan1) = true ∧
    (∀ item ∈ (filterLeads [(getLeadKey leadJuan1, slW)] 0 0 [leadJuan1]).1,
      mapHas [(getLeadKey leadJuan1, slW)] item.key = false) ∧
    mapLookup (processLeads dupEnv optsDetails
        { allLeads := [(getLeadKey leadJuan1, slW)] }
        (filterLeads [(getLeadKey leadJuan1, slW)] 0 dupEnv.now [leadJuan1]).1).allLeads
      (getLeadKey leadJuan1) = some slW := by
  refine ⟨?_, ?_, ?_, ?_⟩
  · exact claim_C8_store_monotone.1 [(getLeadKey leadJuan1, slW)]
      (getLeadKey leadJuan1) slW (by decide)
  · exact claim_C8_store_monotone.2.1 [(getLeadKey leadJuan1, slW)] "other"
      (getLeadKey leadJuan1) slW (by decide)
  · exact fun item hitem =>
      claim_C8_store_monotone.2.2.1 [(getLeadKey leadJuan1, slW)] 0 0
        [leadJuan1] item hitem
  · rw [claim_C8_store_monotone.2.2.2 dupEnv optsDetails
      { allLeads := [(getLeadKey leadJuan1, slW)] } 0 [leadJuan1]
      (getLeadKey leadJuan1) (by decide)]
    decide

/-- C10: every lead returned by a run without detail extraction has null
`contact.email`, `contact.phone`, `contact.cellPhone` and `property.id`
(the `StructuredLead` record type itself fixes the claimed shape); and every
entry visible after the end-of-scroll final rescan is either a previously
stored entry, unchanged, or a fresh one with those four fields null — even
when detail extraction is on. -/
theorem claim_C10_shape_and_nulls :
    (∀ (env : Env) (target : Int) (opts : Options) (leads : List StructuredLead),
      opts.extractDetails = false →
      scrapeLeadsUntilDateE env target opts = .ok leads →
      ∀ l ∈ leads, l.contact.email = none ∧ l.contact.phone = none ∧
        l.contact.cellPhone = none ∧ l.property.id = none) ∧
    (∀ (env : Env) (target : Int) (st : LoopState) (finals : List RawLead)
        (k : String) (v : StructuredLead),
      mapLookup (finalPass env target st finals).allLeads k = some v →
      mapLookup st.allLeads k = some v ∨
        (v.contact.email = none ∧ v.contact.phone = none ∧
          v.contact.cellPhone = none ∧ v.property.id = none)) := by
  constructor
  · intro env target opts leads hdet hrun
    apply run_preserves
      (fun sl => sl.contact.email = none ∧ sl.contact.phone = none ∧
        sl.contact.cellPhone = none ∧ sl.property.id = none) ?_ hrun
    intro k lead hvis hdok
    exact ⟨fun idx => insertedValue_nulls lead idx hdet, structuredNull_nulls env lead⟩
  · intro env target st finals k v h
    rcases finalPass_lookup_or_null finals h with h2 | ⟨lead, rfl⟩
    · exact Or.inl h2
    · exact Or.inr (structuredNull_nulls env lead)

/-- C10 witness: the one-pass run (no detail extraction) returns exactly one
lead and its four detail fields are null; and a fresh key inserted by a
final rescan over an undated row carries the four nulls. -/
theorem claim_C10_shape_and_nulls_witness :
    scrapeLeadsUntilDateE onePassEnv 0 {} = .ok runOnePass ∧
    runOnePass.length = 1 ∧
    (∀ l ∈ runOnePass, l.contact.email = none ∧ l.contact.phone = none ∧
      l.contact.cellPhone = none ∧ l.property.id = none) ∧
    (mapLookup ({} : LoopState).allLeads (getLeadKey leadAnaUndated)
        = some (structuredNull baseEnv leadAnaUndated) ∨
      ((structuredNull baseEnv leadAnaUndated).contact.email = none ∧
        (structuredNull baseEnv leadAnaUndated).contact.phone = none ∧
        (structuredNull baseEnv leadAnaUndated).contact.cellPhone = none ∧
        (structuredNull baseEnv leadAnaUndated).property.id = none)) := by
  refine ⟨rfl, rfl, ?_, ?_⟩
  · exact claim_C10_shape_and_nulls.1 onePassEnv 0 {} runOnePass rfl rfl
  · exact claim_C10_shape_and_nulls.2 baseEnv 0 {} [leadAnaUndated]
      (getLeadKey leadAnaUndated) (structuredNull baseEnv leadAnaUndated) (by decide)
